import Mathlib

/-!
Verification of the Docker management REST API backend.

The source under scrutiny is a FastAPI backend
(`backend/app/api/endpoints/local.py`, `backend/app/api/endpoints/remote.py`,
`backend/app/utils/helpers.py`, `backend/app/core/dependencies.py`).
This file gives a shallow embedding of the relevant operations:

* image-reference sanitisation (`str.replace(":", "_").replace("/", "_")`),
  with strings modelled as `List Char` where character-level reasoning is
  needed, and Lean `String` elsewhere;
* `cleanup_temp_files` from `helpers.py`, with the filesystem modelled as a
  list of existing paths and `os.remove` failures supplied by an oracle;
* the one-JSON-object-per-line parsing loop shared by all list endpoints;
* the local and remote control operations (start/stop/restart/remove);
* the local and remote log-stream generators;
* the per-request SSH handle lifecycle of the remote endpoints, as event
  traces;
* the three export pipelines (single image, all-in-one archive, individual
  archives zipped), as explicit state-passing executions over failure
  oracles, recording every temp-path creation and deletion.

Effects are made explicit: Python exceptions become sum types / `Except`,
fallible external calls (docker SDK, SSH exec, `os.remove`) are driven by
oracle parameters, and FastAPI `BackgroundTasks` are modelled by running the
registered cleanup after the response is delivered.
-/

namespace DockerApp

/-! ## Image-reference sanitisation

`local.py` line 270 / 347, `remote.py` line 304 / 367:
`image_name.replace(":", "_").replace("/", "_")`.  Both patterns are single
characters, so Python's `str.replace` acts character-wise; references are
modelled as `List Char`. -/

/-- One character of `".replace(':', '_').replace('/', '_')"`. -/
def sanitizeChar (c : Char) : Char :=
  if c = ':' then '_' else if c = '/' then '_' else c

/-- `image_name.replace(":", "_").replace("/", "_")` on a reference modelled
as a character list. -/
def sanitizeRef (s : List Char) : List Char :=
  s.map sanitizeChar

/-- String-level wrapper of `sanitizeRef`, for the export models that carry
names as `String`. -/
def sanitizeS (s : String) : String :=
  String.mk (sanitizeRef s.data)

/-- Python's `s.strip()`: remove leading and trailing whitespace
(character-level model, structurally recursive so that concrete instances
evaluate). -/
def pyStrip (s : String) : String :=
  String.mk (((s.data.dropWhile Char.isWhitespace).reverse.dropWhile
    Char.isWhitespace).reverse)

/-- Python's `pattern in s` substring test, used by
`remote.py` lines 322 and 361 (`not "none:none" in line.strip()`). -/
def pyContains (pat s : List Char) : Bool :=
  (List.range (s.length + 1)).any (fun i => (s.drop i).take pat.length = pat)

/-! ## `cleanup_temp_files` (`helpers.py` lines 3–10)

```python
def cleanup_temp_files(*paths):
    for path in paths:
        if path and os.path.exists(path):
            try:
                os.remove(path)
            except Exception:
                pass
```

The filesystem is a duplicate-free list of existing paths; `removeFails p`
says whether `os.remove(p)` raises (the raise is swallowed).  A `None`
argument is `Option.none`. -/

def cleanup_temp_files (removeFails : String → Bool) :
    List (Option String) → List String → List String
  | [], fs => fs
  | none :: rest, fs => cleanup_temp_files removeFails rest fs
  | some p :: rest, fs =>
      if p ∈ fs then
        if removeFails p then cleanup_temp_files removeFails rest fs
        else cleanup_temp_files removeFails rest (fs.erase p)
      else cleanup_temp_files removeFails rest fs

/-! ## One-JSON-object-per-line parsing loop

Shared shape of `list_running_containers`, `list_docker_images`,
`list_docker_volumes` (`local.py` lines 21–40, 165–179, 216–230) and their
remote counterparts (`remote.py` lines 18–34, 182–198, 248–264):

```python
for line in proc.stdout.splitlines():
    if not line.strip(): continue
    data = json.loads(line)
    result.append(<reshape>(data))
return {..., result}
```

`json.loads` is the oracle `parse` (`none` = `json.JSONDecodeError` raised);
the field reshaping `<reshape>` is total and is the parameter `shape`.  An
exception aborts the whole handler: the accumulated `result` is discarded
and an HTTP 500 is raised, modelled by `Except.error`. -/

def listLoop (parse : String → Option α) (shape : α → β) :
    List String → Except String (List β)
  | [] => Except.ok []
  | line :: rest =>
      if pyStrip line = "" then listLoop parse shape rest
      else
        match parse line with
        | none => Except.error ("JSONDecodeError: " ++ line)
        | some a =>
            match listLoop parse shape rest with
            | Except.ok tl => Except.ok (shape a :: tl)
            | Except.error e => Except.error e

/-! ## HTTP outcomes

FastAPI handlers either return a JSON body or raise
`HTTPException(status_code, detail)`.  Python slicing `s[:n]` is
character-based, modelled by `pySlice`. -/

/-- Result of a non-streaming handler: success body (its `message` field) or
an `HTTPException`. -/
inductive HttpResult where
  | ok (message : String)
  | err (status : Nat) (detail : String)
deriving DecidableEq, Repr

/-- Python `s[:n]` (character-based slice). -/
def pySlice (s : String) (n : Nat) : String :=
  String.mk (s.data.take n)

/-- docker-py `Model.short_id` for containers: `self.id[:12]`. -/
def container_short_id (fullId : String) : String :=
  pySlice fullId 12

/-! ## Local control operations (`local.py` lines 58–92, 148–158, 181–190,
232–242)

Every local control endpoint has the shape

```python
client = get_docker_client()
try:
    <SDK call on the id>
    return {"message": f"..."}
except docker.errors.NotFound:          # ImageNotFound for images
    raise HTTPException(404, f"... not found.")
except Exception as e:
    raise HTTPException(500, str(e))
```

The docker SDK call's outcome is the oracle. -/

/-- Outcome of a docker SDK lookup/control call: success, the id is absent
(`docker.errors.NotFound` / `ImageNotFound`), or any other exception. -/
inductive SdkOutcome where
  | ok
  | notFound
  | sdkError (msg : String)
deriving DecidableEq, Repr

/-- `local.py` 58–68. -/
def start_container (cid : String) (o : SdkOutcome) : HttpResult :=
  match o with
  | .ok => .ok ("Container " ++ cid ++ " started.")
  | .notFound => .err 404 ("Container " ++ cid ++ " not found.")
  | .sdkError m => .err 500 m

/-- `local.py` 70–80. -/
def stop_container (cid : String) (o : SdkOutcome) : HttpResult :=
  match o with
  | .ok => .ok ("Container " ++ cid ++ " stopped.")
  | .notFound => .err 404 ("Container " ++ cid ++ " not found.")
  | .sdkError m => .err 500 m

/-- `local.py` 82–92. -/
def restart_container (cid : String) (o : SdkOutcome) : HttpResult :=
  match o with
  | .ok => .ok ("Container " ++ cid ++ " restarted.")
  | .notFound => .err 404 ("Container " ++ cid ++ " not found.")
  | .sdkError m => .err 500 m

/-- `local.py` 148–158; `force` is forwarded to `container.remove`. -/
def remove_container (cid : String) (_force : Bool) (o : SdkOutcome) : HttpResult :=
  match o with
  | .ok => .ok ("Container " ++ cid ++ " removed.")
  | .notFound => .err 404 ("Container " ++ cid ++ " not found.")
  | .sdkError m => .err 500 m

/-- `local.py` 181–190 (`docker.errors.ImageNotFound` branch). -/
def remove_image (iid : String) (_force : Bool) (o : SdkOutcome) : HttpResult :=
  match o with
  | .ok => .ok ("Image " ++ iid ++ " removed.")
  | .notFound => .err 404 ("Image " ++ iid ++ " not found.")
  | .sdkError m => .err 500 m

/-- `local.py` 232–242. -/
def remove_volume (vname : String) (_force : Bool) (o : SdkOutcome) : HttpResult :=
  match o with
  | .ok => .ok ("Volume " ++ vname ++ " removed.")
  | .notFound => .err 404 ("Volume " ++ vname ++ " not found.")
  | .sdkError m => .err 500 m

/-! ## Remote control operations (`remote.py` lines 61–101, 164–177,
200–213, 266–279)

Every remote control endpoint has the shape

```python
client = get_ssh_client(conn)
try:
    stdin, stdout, stderr = client.exec_command(f'docker <verb> {id}')
    exit_status = stdout.channel.recv_exit_status()
    if exit_status != 0:
        raise Exception(stderr.read().decode('utf-8'))
    return {"message": f"... on remote."}
except Exception as e:
    raise HTTPException(500, detail=str(e))
finally:
    client.close()
```

`str(Exception(t)) = t`, so the 500 detail is the remote stderr text.  The
oracle is the SSH exec outcome. -/

/-- Outcome of `client.exec_command` plus `recv_exit_status`:
either the call itself raised (transport error), or the remote command ran
with an exit status, stdout text, and stderr text. -/
inductive ExecOutcome where
  | raised (msg : String)
  | ran (exit : Nat) (stdoutText stderrText : String)
deriving DecidableEq, Repr

/-- Shared body of the remote control endpoints: 500 on any exception,
500 with stderr on a non-zero exit status, else the success message. -/
def remoteControl (successMsg : String) (e : ExecOutcome) : HttpResult :=
  match e with
  | .raised m => .err 500 m
  | .ran exit _ errT =>
      if exit ≠ 0 then .err 500 errT else .ok successMsg

/-- `remote.py` 61–73. -/
def start_remote_container (cid : String) (e : ExecOutcome) : HttpResult :=
  remoteControl ("Container " ++ cid ++ " started on remote.") e

/-- `remote.py` 75–87. -/
def stop_remote_container (cid : String) (e : ExecOutcome) : HttpResult :=
  remoteControl ("Container " ++ cid ++ " stopped on remote.") e

/-- `remote.py` 89–101. -/
def restart_remote_container (cid : String) (e : ExecOutcome) : HttpResult :=
  remoteControl ("Container " ++ cid ++ " restarted on remote.") e

/-- `remote.py` 164–177; `force` only selects the `-f` flag of the command. -/
def remove_remote_container (cid : String) (_force : Bool) (e : ExecOutcome) : HttpResult :=
  remoteControl ("Container " ++ cid ++ " removed on remote.") e

/-- `remote.py` 200–213. -/
def remove_remote_image (iid : String) (_force : Bool) (e : ExecOutcome) : HttpResult :=
  remoteControl ("Image " ++ iid ++ " removed on remote.") e

/-- `remote.py` 266–279. -/
def remove_remote_volume (vname : String) (_force : Bool) (e : ExecOutcome) : HttpResult :=
  remoteControl ("Volume " ++ vname ++ " removed on remote.") e

/-! ## Run a container from an image (`local.py` 192–209, `remote.py`
215–243) -/

/-- The call the local handler makes:
`client.containers.run(image_name, detach=True, name=name)`. -/
structure LocalRunCall where
  image : String
  detach : Bool
  name : Option String
deriving DecidableEq, Repr

/-- Outcome of `client.containers.run`: the created container's full id,
`ImageNotFound`, or any other exception. -/
inductive RunOutcome where
  | created (fullId : String)
  | imageMissing
  | failed (msg : String)
deriving DecidableEq, Repr

/-- Result of a run handler: message and id, or an `HTTPException`. -/
inductive RunHttpResult where
  | ok (message id : String)
  | err (status : Nat) (detail : String)
deriving DecidableEq, Repr

/-- `local.py` 192–209: returns the call made to the SDK and the HTTP
result; on success the body's `id` is `container.short_id`. -/
def run_container_from_image (image : String) (name : Option String)
    (o : RunOutcome) : LocalRunCall × RunHttpResult :=
  (⟨image, true, name⟩,
    match o with
    | .created fullId =>
        .ok ("Container successfully started from " ++ image ++ ".")
          (container_short_id fullId)
    | .imageMissing => .err 404 ("Image " ++ image ++ " not found.")
    | .failed m => .err 500 m)

/-- `remote.py` 222: `name_flag = f"--name {name}" if name else ""`, then
line 225: `f'docker run -d {name_flag} {image_name}'`. -/
def remoteRunCommand (image : String) (name : Option String) : String :=
  "docker run -d " ++
    (match name with | some n => "--name " ++ n | none => "") ++
    " " ++ image

/-- `remote.py` 215–243: returns the command string sent over SSH and the
HTTP result.  On exit status 0 the body's `id` is
`stdout.read().decode().strip()`, truncated to 12 characters when longer. -/
def run_remote_container_from_image (image : String) (name : Option String)
    (e : ExecOutcome) : String × RunHttpResult :=
  (remoteRunCommand image name,
    match e with
    | .raised m => .err 500 m
    | .ran exit outT errT =>
        if exit ≠ 0 then .err 500 errT
        else
          let cid := pyStrip outT
          let cid := if cid.length > 12 then pySlice cid 12 else cid
          .ok ("Container successfully started from " ++ image ++ " on remote.") cid)

/-! ## Log-stream generators

Local (`local.py` 105–111 and 133–139, identical shape):

```python
def log_generator():
    try:
        for chunk in <source>:
            if chunk:
                yield chunk
    except Exception as e:
        yield f"Error reading stream: {str(e)}".encode('utf-8')
```

The source iterator is a list of events: a yielded chunk, normal
exhaustion, or an exception raised by the iterator.  The generator's output
is the list of yielded chunks plus a flag saying whether the generator
itself terminated by raising (it never does here: the `except` catches). -/

/-- One step of the local log source iterator. -/
inductive LocalSrcEv where
  | chunk (s : String)
  | stop
  | fail (msg : String)
deriving DecidableEq, Repr

/-- The local log generator over a source event list (an exhausted list
behaves like `stop`).  Second component: `true` iff the generator raised. -/
def localLogGen : List LocalSrcEv → List String × Bool
  | [] => ([], false)
  | LocalSrcEv.stop :: _ => ([], false)
  | LocalSrcEv.fail m :: _ => (["Error reading stream: " ++ m], false)
  | LocalSrcEv.chunk s :: rest =>
      let (out, r) := localLogGen rest
      if s = "" then (out, r) else (s :: out, r)

/-!
Remote (`remote.py` 114–125 and 143–156, identical shape):

```python
def log_generator():
    try:
        while True:
            line = stdout.readline()
            if not line:
                err = stderr.read().decode('utf-8')
                if err:
                    yield f"Error reading stream: {err}".encode('utf-8')
                break
            yield line.encode('utf-8')
    finally:
        client.close()
```

There is no `except` clause: an exception raised by `readline` propagates
out of the generator (the `finally` still closes the SSH client).
`readline` events: a returned line (`""` means end-of-stream) or a raised
exception.  `stderrText` is what `stderr.read()` returns at end-of-stream. -/

/-- One `stdout.readline()` result on the remote log channel. -/
inductive RemoteRead where
  | line (s : String)
  | exc (msg : String)
deriving DecidableEq, Repr

/-- The remote log generator: yielded chunks and whether it terminated by
raising.  An exhausted read list behaves like reading `""` (end-of-stream). -/
def remoteLogGen (stderrText : String) : List RemoteRead → List String × Bool
  | [] =>
      ((if stderrText ≠ "" then ["Error reading stream: " ++ stderrText] else []), false)
  | RemoteRead.line s :: rest =>
      if s = "" then
        ((if stderrText ≠ "" then ["Error reading stream: " ++ stderrText] else []), false)
      else
        let (out, r) := remoteLogGen stderrText rest
        (s :: out, r)
  | RemoteRead.exc _ :: _ => ([], true)

/-! ## SSH handle lifecycle of remote endpoints (`remote.py`)

Every remote endpoint starts with `client = get_ssh_client(conn)`
(`dependencies.py` 15–22), which constructs a fresh `paramiko.SSHClient`
and connects; on connection failure it raises `HTTPException(500)` and no
usable handle exists.  Handles are request-local by construction — nothing
stores one beyond the handler.

Non-streaming endpoints close the handle in a `finally`; the two streaming
endpoints close it either in the `except` branch (when `exec_command` or
response construction raises) or in the generator's `finally` (when the
stream ends, the generator raises, or the caller disconnects and the
framework closes the started generator).  Traces record acquisition,
closing, response status, and delivered chunks in order. -/

/-- Events of a remote request trace. -/
inductive REv where
  | acq
  | close
  | respond (status : Nat)
  | chunk (s : String)
deriving DecidableEq, Repr

/-- How far the response framework consumes a streaming body: to the end,
or cancelled after `k` chunks (caller disconnected mid-stream; the started
generator is closed, running its `finally`). -/
inductive Consumption where
  | toEnd
  | cancelAfter (k : Nat)
deriving DecidableEq, Repr

/-- Trace of a non-streaming remote endpoint
(`try: ... except: raise HTTPException ... finally: client.close()`),
e.g. `start_remote_container` (`remote.py` 61–73): the `finally` closes the
handle on success and failure alike, before the result leaves the handler. -/
def remote_nonstream_trace (connectOk : Bool) (e : ExecOutcome) : List REv :=
  if connectOk then
    match e with
    | ExecOutcome.raised _ => [REv.acq, REv.close, REv.respond 500]
    | ExecOutcome.ran exit _ _ =>
        if exit ≠ 0 then [REv.acq, REv.close, REv.respond 500]
        else [REv.acq, REv.close, REv.respond 200]
  else [REv.respond 500]

/-- Trace of `stream_remote_container_stdout_logs` (`remote.py` 103–131;
137–162 is identical up to the command): on an exception before streaming
the `except` closes the handle; otherwise the generator's `finally` closes
it exactly when the generator terminates — end of stream, mid-read
exception, or disconnection of a consumer that has started it. -/
def stream_remote_trace (connectOk execRaises : Bool) (stderrText : String)
    (reads : List RemoteRead) (c : Consumption) : List REv :=
  if connectOk then
    if execRaises then [REv.acq, REv.close, REv.respond 500]
    else
      let chunks := (remoteLogGen stderrText reads).1
      let delivered := match c with
        | Consumption.toEnd => chunks
        | Consumption.cancelAfter k => chunks.take k
      REv.acq :: REv.respond 200 :: (delivered.map REv.chunk ++ [REv.close])
  else [REv.respond 500]

/-! ## Export pipelines: temp-file accounting

Temporary artifacts of one export request: the `mkstemp(".tar")` file, the
`mkstemp(".tar.gz")` file, the `mkdtemp()` directory, the
`mkstemp(".zip")` file, and the per-image files inside the directory.
`FsState` tracks the artifacts currently existing, plus every creation and
every successful removal event (as multisets: a path re-created after
removal counts again).  FastAPI `BackgroundTasks` are modelled by running
the registered cleanup after the response is delivered, inside the run
functions. -/

/-- A temporary path of an export request. -/
inductive TPath where
  | tarP
  | gzP
  | dirP
  | zipP
  | fileP (name : String)
deriving DecidableEq, Repr

/-- Is the path the temp directory or a file inside it (what
`shutil.rmtree(temp_dir)` removes)? -/
def inTempDir : TPath → Bool
  | TPath.dirP => true
  | TPath.fileP _ => true
  | _ => false

/-- Filesystem accounting state of one export request. -/
structure FsState where
  fs : List TPath
  created : List TPath
  deleted : List TPath
deriving DecidableEq, Repr

/-- The empty state at request start. -/
def FsState.init : FsState := ⟨[], [], []⟩

/-- Create a temp artifact (`mkstemp` / `mkdtemp` / `gzip.open(.., 'wb')`).
Opening a path that already exists truncates the file but creates no new
artifact. -/
def mkPath (p : TPath) (st : FsState) : FsState :=
  if p ∈ st.fs then st
  else { st with fs := st.fs ++ [p], created := st.created ++ [p] }

/-- `os.remove` / removal of one artifact, recording the removal event.
Callers only invoke it on existing paths. -/
def rmPath (p : TPath) (st : FsState) : FsState :=
  { st with fs := st.fs.erase p, deleted := st.deleted ++ [p] }

/-- `cleanup_temp_files(*paths)` (`helpers.py` 3–10) acting on the export
state: `None` and non-existing paths are skipped, existing ones removed. -/
def cleanupT (paths : List (Option TPath)) (st : FsState) : FsState :=
  paths.foldl
    (fun st op =>
      match op with
      | none => st
      | some p => if p ∈ st.fs then rmPath p st else st)
    st

/-- `shutil.rmtree(temp_dir, ignore_errors=True)`: removes the directory
and every file currently inside it, one removal event each. -/
def rmTree (st : FsState) : FsState :=
  { st with
      fs := st.fs.filter (fun p => !(inTempDir p)),
      deleted := st.deleted ++ st.fs.filter (fun p => inTempDir p) }

/-- Names of the files currently inside the temp directory (the zip members
`shutil.make_archive(base_name, 'zip', temp_dir)` would package). -/
def dirMembers (st : FsState) : List String :=
  st.fs.filterMap (fun p => match p with | TPath.fileP n => some n | _ => none)

/-- Result of an export endpoint: a `FileResponse` download with the given
filename, or an `HTTPException`. -/
inductive ExportResult where
  | file (filename : String)
  | err (status : Nat) (detail : String)
deriving DecidableEq, Repr

/-- `str()` of a starlette `HTTPException`, as produced when `local.py`'s
blanket `except Exception as e` catches one: `f"{status_code}: {detail}"`. -/
def httpExcStr (status : Nat) (detail : String) : String :=
  toString status ++ ": " ++ detail

/-! ## Single-image export (`local.py` 244–278) -/

/-- Failure oracle for `download_specific_image`: the image lookup fails
(404 / other), the save loop raises, or everything succeeds. -/
inductive SpecificOutcome where
  | imageMissing
  | lookupError (msg : String)
  | saveFails (msg : String)
  | success
deriving DecidableEq, Repr

/-- `download_specific_image`, including the post-response background
cleanup on success.  Returns the final state and the HTTP outcome. -/
def download_specific_image_run (imageName : String) (o : SpecificOutcome) :
    FsState × ExportResult :=
  match o with
  | SpecificOutcome.imageMissing =>
      (FsState.init, ExportResult.err 404 ("Image " ++ imageName ++ " not found"))
  | SpecificOutcome.lookupError m =>
      (FsState.init, ExportResult.err 500 m)
  | SpecificOutcome.saveFails m =>
      let st := mkPath TPath.gzP FsState.init
      (cleanupT [some TPath.gzP] st,
        ExportResult.err 500 ("Failed to save image: " ++ m))
  | SpecificOutcome.success =>
      let st := mkPath TPath.gzP FsState.init
      (cleanupT [some TPath.gzP] st,
        ExportResult.file (sanitizeS imageName ++ ".tar.gz"))

/-! ## All images, single archive (`local.py` 280–328) -/

/-- A docker-py image as the export endpoints see it: its tag list and its
`short_id` (`"sha256:" + 12` hex characters for images). -/
structure LocalImage where
  tags : List String
  short_id : String
deriving DecidableEq, Repr

/-- `local.py` 292–298: collect all tags, falling back to the short id for
untagged images — the identifiers passed to `docker save`. -/
def imageIdentifiers (images : List LocalImage) : List String :=
  images.foldr
    (fun img acc => (if img.tags.isEmpty then [img.short_id] else img.tags) ++ acc) []

/-- Failure oracle for the `docker save` / gzip-compress stages. -/
inductive AllStage where
  | saveFails (stderrText : String)
  | compressFails (msg : String)
  | allOk
deriving DecidableEq, Repr

/-- `download_all_images`: `listRaises` is a raise from
`client.images.list()`.  An empty image list raises
`HTTPException(404, "No images found on this machine")` *inside* the `try`;
the blanket `except Exception` catches it, cleans up via
`vars().get(...)` (both `None` at that point), and re-raises
`HTTPException(500, str(e))`. -/
def download_all_images_run (images : List LocalImage)
    (listRaises : Option String) (stage : AllStage) : FsState × ExportResult :=
  match listRaises with
  | some m => (cleanupT [none, none] FsState.init, ExportResult.err 500 m)
  | none =>
      if images.isEmpty then
        (cleanupT [none, none] FsState.init,
          ExportResult.err 500 (httpExcStr 404 "No images found on this machine"))
      else
        let st := mkPath TPath.gzP (mkPath TPath.tarP FsState.init)
        match stage with
        | AllStage.saveFails errT =>
            (cleanupT [some TPath.tarP, some TPath.gzP] st,
              ExportResult.err 500 ("Failed to save all images (Docker Error): " ++ errT))
        | AllStage.compressFails m =>
            (cleanupT [some TPath.tarP, some TPath.gzP] st, ExportResult.err 500 m)
        | AllStage.allOk =>
            (cleanupT [some TPath.tarP, some TPath.gzP] st,
              ExportResult.file "all_docker_images.tar.gz")

/-! ## All images, individual archives in a zip (`local.py` 330–393) -/

/-- `local.py` 344–350: the per-image file base name — first tag sanitised,
or the short id verbatim for untagged images. -/
def local_indiv_name (img : LocalImage) : String :=
  match img.tags with
  | t :: _ => sanitizeS t
  | [] => img.short_id

/-- Per-image save outcome in the individual-export loop: saved, raised
before `gzip.open` created the file (`client.images.get` failed), or raised
after it (partial file on disk). -/
inductive ImgSave where
  | ok
  | failBeforeOpen
  | failAfterOpen
deriving DecidableEq, Repr

/-- One iteration of the loop at `local.py` 344–364: on an exception the
partial file is removed if it exists, and the loop continues. -/
def localIndivStep (st : FsState) (img : LocalImage) (o : ImgSave) : FsState :=
  let p := TPath.fileP (local_indiv_name img ++ ".tar.gz")
  match o with
  | ImgSave.ok => mkPath p st
  | ImgSave.failBeforeOpen => st
  | ImgSave.failAfterOpen =>
      let st := mkPath p st
      if p ∈ st.fs then rmPath p st else st

/-- Failure oracle for the zip stage. -/
inductive ZipStage where
  | mkstempZipFails (msg : String)
  | makeArchiveFails (msg : String)
  | zipOk
deriving DecidableEq, Repr

/-- `download_all_images_individual`: final state, HTTP outcome, and the
zip's member list (`[]` when no zip is produced).  The early-failure
`except` runs `shutil.rmtree(temp_dir)` / `cleanup_temp_files(zip_path)`
only for the names already in `locals()`; the empty-list 404 raised inside
the `try` is re-raised as a 500 by the blanket handler. -/
def download_all_images_individual_run (listRaises : Option String)
    (imgs : List (LocalImage × ImgSave)) (z : ZipStage) :
    FsState × ExportResult × List String :=
  match listRaises with
  | some m => (FsState.init, ExportResult.err 500 m, [])
  | none =>
      if imgs.isEmpty then
        (FsState.init,
          ExportResult.err 500 (httpExcStr 404 "No images found on this machine"), [])
      else
        let st := mkPath TPath.dirP FsState.init
        let st := imgs.foldl (fun st io => localIndivStep st io.1 io.2) st
        match z with
        | ZipStage.mkstempZipFails m =>
            (rmTree st, ExportResult.err 500 m, [])
        | ZipStage.makeArchiveFails m =>
            let st := mkPath TPath.zipP st
            (cleanupT [some TPath.zipP] (rmTree st), ExportResult.err 500 m, [])
        | ZipStage.zipOk =>
            let st := mkPath TPath.zipP st
            let members := dirMembers st
            (cleanupT [some TPath.zipP] (rmTree st),
              ExportResult.file "individual_docker_images.zip", members)

/-! ## Remote exports (`remote.py` 281–399) -/

/-- `remote.py` 322 / 361: keep the stripped listing lines that are
non-blank and do not contain `"none:none"` as a substring — these are the
image references the remote export loops over.  (The docker CLI renders an
untagged image as `<none>:<none>` under this format.) -/
def remoteImageLines (lines : List String) : List String :=
  lines.filterMap
    (fun l =>
      let t := pyStrip l
      if t ≠ "" ∧ pyContains "none:none".data t.data = false then some t else none)

/-- `remote.py` 304–305: download filename of a remote single-image
export. -/
def remote_specific_filename (imageName : String) : String :=
  "remote_" ++ sanitizeS imageName ++ ".tar.gz"

/-- `download_remote_specific_image` (`remote.py` 281–310): the gz temp
file is created *before* the `try`; the remote `docker save` either raises
(transport error) or runs with an exit status — a non-zero status raises
`Exception(f"Docker save failed: {stderr}")`; any failure deletes the gz
file in the `except` and surfaces HTTP 500, success schedules its deletion
after the response.  Returns the final state (background task included)
and the HTTP outcome. -/
def download_remote_specific_image_run (imageName : String) (e : ExecOutcome) :
    FsState × ExportResult :=
  let st := mkPath TPath.gzP FsState.init
  match e with
  | ExecOutcome.raised m =>
      (cleanupT [some TPath.gzP] st, ExportResult.err 500 m)
  | ExecOutcome.ran exit _ errT =>
      if exit ≠ 0 then
        (cleanupT [some TPath.gzP] st,
          ExportResult.err 500 ("Docker save failed: " ++ errT))
      else
        (cleanupT [some TPath.gzP] st,
          ExportResult.file (remote_specific_filename imageName))

/-- Oracle for the bulk `docker save` stage of
`download_remote_all_images`: the listing exec raises, the save exec
raises, or the save ran with an exit status and stderr text. -/
inductive RemoteAllStage where
  | listRaises (msg : String)
  | saveRaises (msg : String)
  | saveRan (exit : Nat) (stderrText : String)
deriving DecidableEq, Repr

/-- `download_remote_all_images` (`remote.py` 312–349): the gz temp file is
created *before* the `try`; an empty filtered image list raises a plain
`Exception("No valid images found on remote machine")`, caught by the
handler as a 500; any failure deletes the gz file, success schedules its
deletion after the response.  Returns the final state (background task
included) and the HTTP outcome. -/
def download_remote_all_images_run (lines : List String) (stage : RemoteAllStage) :
    FsState × ExportResult :=
  let st := mkPath TPath.gzP FsState.init
  match stage with
  | RemoteAllStage.listRaises m =>
      (cleanupT [some TPath.gzP] st, ExportResult.err 500 m)
  | RemoteAllStage.saveRaises m =>
      if (remoteImageLines lines).isEmpty then
        (cleanupT [some TPath.gzP] st,
          ExportResult.err 500 "No valid images found on remote machine")
      else (cleanupT [some TPath.gzP] st, ExportResult.err 500 m)
  | RemoteAllStage.saveRan exit errT =>
      if (remoteImageLines lines).isEmpty then
        (cleanupT [some TPath.gzP] st,
          ExportResult.err 500 "No valid images found on remote machine")
      else if exit ≠ 0 then
        (cleanupT [some TPath.gzP] st,
          ExportResult.err 500 ("Docker save failed: " ++ errT))
      else
        (cleanupT [some TPath.gzP] st, ExportResult.file "remote_all_images.tar.gz")

/-- Per-image outcome in the remote individual-export loop
(`remote.py` 366–381).  `exec_command` may raise before `gzip.open`
created the file, or the chunk reads may raise after it; otherwise the
remote `docker save` ran with some exit status — **which the loop never
checks** — and the gz file is written from whatever stdout carried. -/
inductive RemoteImgSave where
  | ran (exit : Nat)
  | raisedBeforeOpen
  | raisedAfterOpen
deriving DecidableEq, Repr

/-- One iteration of the loop at `remote.py` 366–381. -/
def remoteIndivStep (st : FsState) (img : String) (o : RemoteImgSave) : FsState :=
  let p := TPath.fileP (sanitizeS img ++ ".tar.gz")
  match o with
  | RemoteImgSave.ran _ => mkPath p st
  | RemoteImgSave.raisedBeforeOpen => st
  | RemoteImgSave.raisedAfterOpen =>
      let st := mkPath p st
      if p ∈ st.fs then rmPath p st else st

/-- Did the remote per-image export fail (transport exception or non-zero
`docker save` exit status)? -/
def remoteImgFailed : RemoteImgSave → Bool
  | RemoteImgSave.ran exit => exit ≠ 0
  | _ => true

/-- `download_remote_all_images_individual` (`remote.py` 351–399): the temp
directory and the zip file are created *before* the `try`; the per-image
outcomes pair each kept listing line with its oracle value; `z` drives the
`make_archive` stage.  Returns final state, HTTP outcome, and zip member
list. -/
def download_remote_all_images_individual_run (lines : List String)
    (saves : String → RemoteImgSave) (listRaises : Option String)
    (z : ZipStage) : FsState × ExportResult × List String :=
  let st := mkPath TPath.zipP (mkPath TPath.dirP FsState.init)
  match listRaises with
  | some m =>
      (cleanupT [some TPath.zipP] (rmTree st), ExportResult.err 500 m, [])
  | none =>
      let images := remoteImageLines lines
      if images.isEmpty then
        (cleanupT [some TPath.zipP] (rmTree st),
          ExportResult.err 500 "No valid images found on remote machine", [])
      else
        let st := images.foldl (fun st img => remoteIndivStep st img (saves img)) st
        match z with
        | ZipStage.mkstempZipFails m =>
            -- not reachable on the remote path: the zip temp is made before the try
            (cleanupT [some TPath.zipP] (rmTree st), ExportResult.err 500 m, [])
        | ZipStage.makeArchiveFails m =>
            (cleanupT [some TPath.zipP] (rmTree st), ExportResult.err 500 m, [])
        | ZipStage.zipOk =>
            let members := dirMembers st
            (cleanupT [some TPath.zipP] (rmTree st),
              ExportResult.file "remote_individual_images.zip", members)

/-! ## The six list endpoints as `listLoop` instances

`json.loads` output is consumed only through `data.get(key)` (with an
occasional default), modelled as a partial map from keys to values;
a Python f-string formats a missing value (`None`) as `"None"`. -/

/-- A parsed JSON object, as accessed by `data.get`. -/
def JsonObj : Type := String → Option String

/-- Python f-string rendering of a `data.get` result. -/
def pyFmt : Option String → String
  | some s => s
  | none => "None"

/-- Row shape of `list_running_containers` (`local.py` 27–37). -/
structure ContainerRow where
  id : Option String
  name : Option String
  status : Option String
  state : String
  health : String
  image : Option String
  created : Option String
  running_for : Option String
  ports : Option String
deriving DecidableEq, Repr

/-- `local.py` 27–37. -/
def containerShape (d : JsonObj) : ContainerRow :=
  ⟨d "ID", d "Names", d "Status", (d "State").getD "N/A", "N/A",
    d "Image", d "CreatedAt", d "RunningFor", d "Ports"⟩

/-- `list_running_containers` (`local.py` 16–40). -/
def list_running_containers (parse : String → Option JsonObj)
    (lines : List String) : Except String (List ContainerRow) :=
  listLoop parse containerShape lines

/-- Row shape of `list_docker_images` (`local.py` 171–176). -/
structure ImageRow where
  id : Option String
  image_name : List String
  size_mb : Option String
  created : Option String
deriving DecidableEq, Repr

/-- `local.py` 171–176. -/
def imageShape (d : JsonObj) : ImageRow :=
  ⟨d "ID", [pyFmt (d "Repository") ++ ":" ++ pyFmt (d "Tag")], d "Size", d "CreatedAt"⟩

/-- `list_docker_images` (`local.py` 160–179). -/
def list_docker_images (parse : String → Option JsonObj)
    (lines : List String) : Except String (List ImageRow) :=
  listLoop parse imageShape lines

/-- Row shape of `list_docker_volumes` (`local.py` 222–227). -/
structure VolumeRow where
  name : Option String
  driver : Option String
  mountpoint : String
  labels : String
deriving DecidableEq, Repr

/-- `local.py` 222–227. -/
def volumeShape (d : JsonObj) : VolumeRow :=
  ⟨d "Name", d "Driver", (d "Mountpoint").getD "", (d "Labels").getD ""⟩

/-- `list_docker_volumes` (`local.py` 211–230). -/
def list_docker_volumes (parse : String → Option JsonObj)
    (lines : List String) : Except String (List VolumeRow) :=
  listLoop parse volumeShape lines

/-- Row shape of `list_remote_running_containers` (`remote.py` 25–30). -/
structure RemoteContainerRow where
  id : Option String
  name : Option String
  status : Option String
  image : Option String
deriving DecidableEq, Repr

/-- `remote.py` 25–30. -/
def remoteContainerShape (d : JsonObj) : RemoteContainerRow :=
  ⟨d "ID", d "Names", d "Status", d "Image"⟩

/-- `list_remote_running_containers` (`remote.py` 15–36). -/
def list_remote_running_containers (parse : String → Option JsonObj)
    (lines : List String) : Except String (List RemoteContainerRow) :=
  listLoop parse remoteContainerShape lines

/-- Row shape of `list_remote_docker_images` (`remote.py` 188–192). -/
structure RemoteImageRow where
  id : Option String
  image_name : List String
  size_mb : Option String
deriving DecidableEq, Repr

/-- `remote.py` 188–192. -/
def remoteImageShape (d : JsonObj) : RemoteImageRow :=
  ⟨d "ID", [pyFmt (d "Repository") ++ ":" ++ pyFmt (d "Tag")], d "Size"⟩

/-- `list_remote_docker_images` (`remote.py` 179–198). -/
def list_remote_docker_images (parse : String → Option JsonObj)
    (lines : List String) : Except String (List RemoteImageRow) :=
  listLoop parse remoteImageShape lines

/-- Row shape of `list_remote_docker_volumes` (`remote.py` 253–258). -/
structure RemoteVolumeRow where
  name : Option String
  driver : Option String
  mountpoint : Option String
deriving DecidableEq, Repr

/-- `remote.py` 253–258. -/
def remoteVolumeShape (d : JsonObj) : RemoteVolumeRow :=
  ⟨d "Name", d "Driver", d "Mountpoint"⟩

/-- `list_remote_docker_volumes` (`remote.py` 245–264). -/
def list_remote_docker_volumes (parse : String → Option JsonObj)
    (lines : List String) : Except String (List RemoteVolumeRow) :=
  listLoop parse remoteVolumeShape lines

/-! ## Auxiliary predicates and witness data -/

/-- The non-blank lines of the tool output, in source order. -/
def keptLines (lines : List String) : List String :=
  lines.filter (fun l => !(pyStrip l = ""))

/-- A concrete `json.loads` stand-in for witnesses: only the line `"{}"`
parses, to the empty JSON object. -/
def witnessParse : String → Option JsonObj :=
  fun l => if l = "{}" then some (fun _ => none) else none

/-- A local control endpoint maps the SDK outcome to HTTP as the spec's
local taxonomy requires: `NotFound` to 404, any other exception to a 500
carrying the diagnostic, success to the success message. -/
def localMaps (f : SdkOutcome → HttpResult) (okMsg notFoundMsg : String) : Prop :=
  f SdkOutcome.notFound = HttpResult.err 404 notFoundMsg
  ∧ (∀ m, f (SdkOutcome.sdkError m) = HttpResult.err 500 m)
  ∧ f SdkOutcome.ok = HttpResult.ok okMsg

/-- A remote control endpoint maps the SSH exec outcome to HTTP: every
failure — a transport exception or any non-zero exit status, including a
nonexistent id — becomes a 500 (never a 404), success only on exit 0. -/
def remoteMaps (f : ExecOutcome → HttpResult) (okMsg : String) : Prop :=
  (∀ m, f (ExecOutcome.raised m) = HttpResult.err 500 m)
  ∧ (∀ exit outT errT, exit ≠ 0 →
      f (ExecOutcome.ran exit outT errT) = HttpResult.err 500 errT)
  ∧ (∀ outT errT, f (ExecOutcome.ran 0 outT errT) = HttpResult.ok okMsg)

/-- The temp-file accounting invariant: every artifact creation is matched
by the removal events plus the artifacts still on disk. -/
def balanced (st : FsState) : Prop :=
  ∀ p, st.created.count p = st.deleted.count p + st.fs.count p

/-- Final accounting of a finished export request: nothing survives, and
the removal events match the creation events exactly — every temp path
instance created was removed exactly once, none was removed twice or
spuriously. -/
def cleanExact (st : FsState) : Prop :=
  st.fs = [] ∧ ∀ p, st.deleted.count p = st.created.count p

/-- Did the remote per-image save raise an exception (the only failure the
loop at `remote.py` 366–381 detects)? -/
def remoteImgRaised : RemoteImgSave → Bool
  | RemoteImgSave.ran _ => false
  | _ => true

/-- The zip member a local image contributes. -/
def localMemberName (img : LocalImage) : String :=
  local_indiv_name img ++ ".tar.gz"

/-- The zip member a remote image reference contributes. -/
def remoteMemberName (img : String) : String :=
  sanitizeS img ++ ".tar.gz"

/-- Loop invariant of the local individual-export loop: only the temp
directory and files inside it exist. -/
def fsTempOnly (st : FsState) : Prop :=
  ∀ p ∈ st.fs, inTempDir p = true

/-- Loop invariant of the remote individual-export loop, where the zip temp
file is created before the loop. -/
def fsTempOrZip (st : FsState) : Prop :=
  ∀ p ∈ st.fs, inTempDir p = true ∨ p = TPath.zipP

/-! ## Theorems -/

/-- Closed form of `cleanup_temp_files` on a duplicate-free filesystem: a
path survives iff it was not (listed with a succeeding removal). -/
theorem cleanup_eq_filter (rf : String → Bool) (paths : List (Option String))
    (fs : List String) (h : fs.Nodup) :
    cleanup_temp_files rf paths fs =
      fs.filter (fun q => !(decide (some q ∈ paths) && !(rf q))) := by
  induction paths generalizing fs with
  | nil =>
      simp [cleanup_temp_files]
  | cons op rest ih =>
      match op with
      | none =>
          rw [cleanup_temp_files, ih fs h]
          refine List.filter_congr ?_
          intro q _
          simp
      | some p =>
          by_cases hp : p ∈ fs
          · by_cases hrf : rf p
            · rw [cleanup_temp_files, if_pos hp, if_pos hrf, ih fs h]
              refine List.filter_congr ?_
              intro q _
              by_cases hqp : q = p
              · subst hqp; simp [hrf]
              · simp [List.mem_cons, hqp]
            · rw [cleanup_temp_files, if_pos hp, if_neg hrf,
                ih (fs.erase p) (h.erase p), h.erase_eq_filter p,
                List.filter_filter]
              refine List.filter_congr ?_
              intro q _
              by_cases hqp : q = p
              · subst hqp
                simp [hrf]
              · simp [List.mem_cons, hqp, Ne.symm hqp]
          · rw [cleanup_temp_files, if_neg hp, ih fs h]
            refine List.filter_congr ?_
            intro q hq
            have hqp : q ≠ p := fun e => hp (e ▸ hq)
            simp [List.mem_cons, hqp]

/-- C10 — `cleanup_temp_files` (`helpers.py` 3–10) is total and never
raises: it is a plain function of its inputs.  On a duplicate-free
filesystem: (1) a path survives iff it was not listed with a succeeding
removal — in particular `None` entries and non-existing paths are skipped
and a swallowed removal error on one path leaves later paths processed;
(2) a second identical call is a no-op (idempotent); (3) a `None` entry is
skipped outright; (4) a path that does not exist is skipped outright;
(5) a path whose removal raises is left in place while the remaining paths
are still processed. -/
theorem cleanup_temp_files_safe (rf : String → Bool) (paths : List (Option String))
    (fs : List String) (h : fs.Nodup) :
    (∀ q, q ∈ cleanup_temp_files rf paths fs ↔
        q ∈ fs ∧ (some q ∈ paths → rf q = true))
    ∧ cleanup_temp_files rf paths (cleanup_temp_files rf paths fs)
        = cleanup_temp_files rf paths fs
    ∧ cleanup_temp_files rf (none :: paths) fs = cleanup_temp_files rf paths fs
    ∧ (∀ p, p ∉ fs →
        cleanup_temp_files rf (some p :: paths) fs = cleanup_temp_files rf paths fs)
    ∧ (∀ p, rf p = true →
        cleanup_temp_files rf (some p :: paths) fs
          = cleanup_temp_files rf (paths) fs) := by
  refine ⟨?_, ?_, ?_, ?_, ?_⟩
  · intro q
    rw [cleanup_eq_filter rf paths fs h]
    simp only [List.mem_filter, Bool.not_eq_true', Bool.and_eq_false_iff,
      decide_eq_false_iff_not, Bool.not_eq_false]
    constructor
    · rintro ⟨hq, hcases⟩
      refine ⟨hq, fun hmem => ?_⟩
      rcases hcases with h1 | h2
      · exact absurd hmem h1
      · simpa using h2
    · rintro ⟨hq, himp⟩
      by_cases hmem : some q ∈ paths
      · exact ⟨hq, Or.inr (by simpa using himp hmem)⟩
      · exact ⟨hq, Or.inl hmem⟩
  · rw [cleanup_eq_filter rf paths fs h,
      cleanup_eq_filter rf paths _ (h.filter _), List.filter_filter]
    refine List.filter_congr ?_
    intro q _
    cases hb : (!(decide (some q ∈ paths) && !(rf q))) <;> simp [hb]
  · rfl
  · intro p hp
    rw [cleanup_temp_files, if_neg hp]
  · intro p hrf
    by_cases hp : p ∈ fs
    · rw [cleanup_temp_files, if_pos hp, if_pos hrf]
    · rw [cleanup_temp_files, if_neg hp]

/-- Witness for `cleanup_temp_files_safe` at a concrete input: the
filesystem `["a", "c"]`, the argument list `[some "a", none, some "b"]`,
removal always succeeding. -/
theorem cleanup_temp_files_safe_witness :
    (["a", "c"] : List String).Nodup
    ∧ cleanup_temp_files (fun _ => false) [some "a", none, some "b"]
        (cleanup_temp_files (fun _ => false) [some "a", none, some "b"] ["a", "c"])
      = cleanup_temp_files (fun _ => false) [some "a", none, some "b"] ["a", "c"] :=
  ⟨by decide,
    (cleanup_temp_files_safe (fun _ => false) [some "a", none, some "b"]
      ["a", "c"] (by decide)).2.1⟩

/-- When every non-blank line parses, `listLoop` succeeds with the reshaped
rows of the non-blank lines, in source order. -/
theorem listLoop_ok_of {α β : Type} (parse : String → Option α) (shape : α → β)
    (lines : List String) (h : ∀ l ∈ lines, pyStrip l ≠ "" → (parse l).isSome) :
    listLoop parse shape lines =
      Except.ok (((keptLines lines).filterMap parse).map shape) := by
  induction lines with
  | nil => rfl
  | cons l rest ih =>
      by_cases hl : pyStrip l = ""
      · rw [listLoop, if_pos hl, ih (fun x hx hxt => h x (List.mem_cons_of_mem _ hx) hxt)]
        simp [keptLines, List.filter_cons, hl]
      · have hs := h l (List.mem_cons_self l rest) hl
        obtain ⟨a, ha⟩ := Option.isSome_iff_exists.mp hs
        rw [listLoop, if_neg hl, ha,
          ih (fun x hx hxt => h x (List.mem_cons_of_mem _ hx) hxt)]
        simp [keptLines, List.filter_cons, hl, ha]

/-- When some non-blank line fails to parse, `listLoop` fails as a whole:
no partial result list is returned. -/
theorem listLoop_error_of {α β : Type} (parse : String → Option α) (shape : α → β)
    (lines : List String) (h : ∃ l ∈ lines, pyStrip l ≠ "" ∧ parse l = none) :
    ∃ msg, listLoop parse shape lines = Except.error msg := by
  induction lines with
  | nil => simp at h
  | cons l rest ih =>
      by_cases hl : pyStrip l = ""
      · obtain ⟨x, hx, hxt, hxp⟩ := h
        rcases List.mem_cons.mp hx with rfl | hx'
        · exact absurd hl hxt
        · obtain ⟨msg, hmsg⟩ := ih ⟨x, hx', hxt, hxp⟩
          exact ⟨msg, by rw [listLoop, if_pos hl, hmsg]⟩
      · cases hp : parse l with
        | none => exact ⟨"JSONDecodeError: " ++ l, by rw [listLoop, if_neg hl, hp]⟩
        | some a =>
            obtain ⟨x, hx, hxt, hxp⟩ := h
            rcases List.mem_cons.mp hx with rfl | hx'
            · rw [hp] at hxp; cases hxp
            · obtain ⟨msg, hmsg⟩ := ih ⟨x, hx', hxt, hxp⟩
              exact ⟨msg, by rw [listLoop, if_neg hl, hp, hmsg]⟩

/-- C2 — every list operation (containers, images, volumes, local and
remote) parses one JSON object per non-blank line in source order, skips
blank lines, and fails as a whole — returning no partial result list — as
soon as any non-blank line does not parse. -/
theorem list_operations_parse_spec (parse : String → Option JsonObj)
    (lines : List String) :
    ((∀ l ∈ lines, pyStrip l ≠ "" → (parse l).isSome) →
      list_running_containers parse lines
          = Except.ok (((keptLines lines).filterMap parse).map containerShape)
      ∧ list_docker_images parse lines
          = Except.ok (((keptLines lines).filterMap parse).map imageShape)
      ∧ list_docker_volumes parse lines
          = Except.ok (((keptLines lines).filterMap parse).map volumeShape)
      ∧ list_remote_running_containers parse lines
          = Except.ok (((keptLines lines).filterMap parse).map remoteContainerShape)
      ∧ list_remote_docker_images parse lines
          = Except.ok (((keptLines lines).filterMap parse).map remoteImageShape)
      ∧ list_remote_docker_volumes parse lines
          = Except.ok (((keptLines lines).filterMap parse).map remoteVolumeShape))
    ∧ ((∃ l ∈ lines, pyStrip l ≠ "" ∧ parse l = none) →
      (∃ m, list_running_containers parse lines = Except.error m)
      ∧ (∃ m, list_docker_images parse lines = Except.error m)
      ∧ (∃ m, list_docker_volumes parse lines = Except.error m)
      ∧ (∃ m, list_remote_running_containers parse lines = Except.error m)
      ∧ (∃ m, list_remote_docker_images parse lines = Except.error m)
      ∧ (∃ m, list_remote_docker_volumes parse lines = Except.error m)) := by
  constructor
  · intro h
    exact ⟨listLoop_ok_of parse containerShape lines h,
      listLoop_ok_of parse imageShape lines h,
      listLoop_ok_of parse volumeShape lines h,
      listLoop_ok_of parse remoteContainerShape lines h,
      listLoop_ok_of parse remoteImageShape lines h,
      listLoop_ok_of parse remoteVolumeShape lines h⟩
  · intro h
    exact ⟨listLoop_error_of parse containerShape lines h,
      listLoop_error_of parse imageShape lines h,
      listLoop_error_of parse volumeShape lines h,
      listLoop_error_of parse remoteContainerShape lines h,
      listLoop_error_of parse remoteImageShape lines h,
      listLoop_error_of parse remoteVolumeShape lines h⟩

/-- Witness for `list_operations_parse_spec`: with `witnessParse`, a
malformed non-blank line fails the whole containers call. -/
theorem list_operations_parse_spec_witness :
    (∃ l ∈ ["{}", "oops"], pyStrip l ≠ "" ∧ witnessParse l = none)
    ∧ (∃ m, list_running_containers witnessParse ["{}", "oops"]
        = Except.error m) :=
  ⟨⟨"oops", by decide, by decide, rfl⟩,
    ((list_operations_parse_spec witnessParse ["{}", "oops"]).2
      ⟨"oops", by decide, by decide, rfl⟩).1⟩

/-- A character-based slice never exceeds the requested length. -/
theorem pySlice_length_le (s : String) (n : Nat) : (pySlice s n).length ≤ n := by
  show (s.data.take n).length ≤ n
  rw [List.length_take]
  exact Nat.min_le_left n _

/-- Slicing a string no longer than the bound returns it unchanged. -/
theorem pySlice_of_le (s : String) (n : Nat) (h : s.length ≤ n) :
    pySlice s n = s := by
  show String.mk (s.data.take n) = s
  rw [List.take_of_length_le h]

/-- C9 — every successful "run container from image" request starts the
container detached (local: `detach=True` in the SDK call; remote: the
command is `docker run -d …`) and the response body's `id` is the new
container's short identifier of at most 12 characters (local:
`container.short_id = id[:12]`; remote: the stripped stdout — the printed
container id — truncated to 12 characters). -/
theorem run_container_detached_short_id (image : String) (name : Option String)
    (fid outT errT : String) :
    (run_container_from_image image name (RunOutcome.created fid)).1.detach = true
    ∧ (run_container_from_image image name (RunOutcome.created fid)).2
        = RunHttpResult.ok
            ("Container successfully started from " ++ image ++ ".")
            (container_short_id fid)
    ∧ (container_short_id fid).length ≤ 12
    ∧ (∃ rest, (run_remote_container_from_image image name
          (ExecOutcome.ran 0 outT errT)).1 = "docker run -d " ++ rest)
    ∧ (run_remote_container_from_image image name (ExecOutcome.ran 0 outT errT)).2
        = RunHttpResult.ok
            ("Container successfully started from " ++ image ++ " on remote.")
            (pySlice (pyStrip outT) 12)
    ∧ (pySlice (pyStrip outT) 12).length ≤ 12 := by
  refine ⟨rfl, rfl, pySlice_length_le fid 12, ?_, ?_, pySlice_length_le _ 12⟩
  · refine ⟨(match name with | some n => "--name " ++ n | none => "") ++ " " ++ image, ?_⟩
    show remoteRunCommand image name = _
    rw [remoteRunCommand.eq_def]
    simp [String.append_assoc]
  · simp only [run_remote_container_from_image, ne_eq, not_true_eq_false,
      if_false, reduceIte]
    by_cases hl : (pyStrip outT).length > 12
    · simp only [if_pos hl]
    · rw [if_neg hl, pySlice_of_le _ 12 (by omega)]

/-- C6 counterexample — the claim predicts HTTP 404 when the referenced id
does not exist, on remote hosts too.  A remote `docker start` of a
nonexistent container reports failure through a non-zero exit status with
a "No such container" diagnostic on stderr, and `start_remote_container`
(`remote.py` 61–73) turns *every* such failure into HTTP 500 — the remote
handlers have no 404 branch at all. -/
theorem remote_notfound_surfaces_500 :
    start_remote_container "deadbeef"
        (ExecOutcome.ran 1 "" "Error response from daemon: No such container: deadbeef")
      = HttpResult.err 500 "Error response from daemon: No such container: deadbeef"
    ∧ (500 : Nat) ≠ 404 :=
  ⟨rfl, by omega⟩

/-- C6 (amended) — local control operations on containers, images and
volumes surface `NotFound` as HTTP 404 and any other tool-reported failure
as HTTP 500 with the diagnostic text; remote control operations surface
*every* failure — transport error or any non-zero exit status, including a
nonexistent id — as HTTP 500 carrying the tool's stderr text, and succeed
exactly when the remote command exits 0. -/
theorem control_operations_error_mapping (cid iid vname : String) (force : Bool) :
    localMaps (start_container cid)
      ("Container " ++ cid ++ " started.") ("Container " ++ cid ++ " not found.")
    ∧ localMaps (stop_container cid)
      ("Container " ++ cid ++ " stopped.") ("Container " ++ cid ++ " not found.")
    ∧ localMaps (restart_container cid)
      ("Container " ++ cid ++ " restarted.") ("Container " ++ cid ++ " not found.")
    ∧ localMaps (remove_container cid force)
      ("Container " ++ cid ++ " removed.") ("Container " ++ cid ++ " not found.")
    ∧ localMaps (remove_image iid force)
      ("Image " ++ iid ++ " removed.") ("Image " ++ iid ++ " not found.")
    ∧ localMaps (remove_volume vname force)
      ("Volume " ++ vname ++ " removed.") ("Volume " ++ vname ++ " not found.")
    ∧ remoteMaps (start_remote_container cid)
      ("Container " ++ cid ++ " started on remote.")
    ∧ remoteMaps (stop_remote_container cid)
      ("Container " ++ cid ++ " stopped on remote.")
    ∧ remoteMaps (restart_remote_container cid)
      ("Container " ++ cid ++ " restarted on remote.")
    ∧ remoteMaps (remove_remote_container cid force)
      ("Container " ++ cid ++ " removed on remote.")
    ∧ remoteMaps (remove_remote_image iid force)
      ("Image " ++ iid ++ " removed on remote.")
    ∧ remoteMaps (remove_remote_volume vname force)
      ("Volume " ++ vname ++ " removed on remote.") := by
  have hr : ∀ (msg : String), remoteMaps (remoteControl msg) msg := by
    intro msg
    refine ⟨fun m => rfl, ?_, fun outT errT => rfl⟩
    intro exit outT errT h
    simp [remoteControl, h]
  exact ⟨⟨rfl, fun m => rfl, rfl⟩, ⟨rfl, fun m => rfl, rfl⟩,
    ⟨rfl, fun m => rfl, rfl⟩, ⟨rfl, fun m => rfl, rfl⟩,
    ⟨rfl, fun m => rfl, rfl⟩, ⟨rfl, fun m => rfl, rfl⟩,
    hr _, hr _, hr _, hr _, hr _, hr _⟩

/-- Witness for `control_operations_error_mapping`: a concrete remote stop
with exit status 1 surfaces HTTP 500 with the stderr text. -/
theorem control_operations_error_mapping_witness :
    (1 : Nat) ≠ 0
    ∧ stop_remote_container "c1" (ExecOutcome.ran 1 "" "boom")
        = HttpResult.err 500 "boom" :=
  ⟨by omega,
    (control_operations_error_mapping "c1" "i1" "v1"
      false).2.2.2.2.2.2.2.1.2.1 1 "" "boom" (by omega)⟩

/-- C4 counterexample — the claim says every log session (including remote)
turns a mid-stream source error into exactly one in-band diagnostic chunk
instead of raising.  The remote generator (`remote.py` 114–125) has no
`except` clause: when `stdout.readline()` raises after one line has been
streamed, the generator re-raises (second component `true`) and emits no
diagnostic chunk at all. -/
theorem remote_stream_exception_propagates :
    remoteLogGen "" [RemoteRead.line "log line 1\n", RemoteRead.exc "connection reset"]
      = (["log line 1\n"], true) := by
  decide

/-- C4 (amended) — the local log sessions (stdout and file variants,
`local.py` 105–111/133–139) catch a source error mid-stream and emit
exactly one final diagnostic chunk, never raising; the remote sessions
(`remote.py` 114–125/143–156) emit one final diagnostic chunk only when
the line stream ends with pending stderr text, while an exception raised
mid-read propagates out of the generator with no in-band diagnostic (the
`finally` still closes the SSH client, see the C7 theorem). -/
theorem log_stream_error_policy :
    (∀ (chunks : List String) (m : String),
      localLogGen (chunks.map LocalSrcEv.chunk ++ [LocalSrcEv.fail m])
        = (chunks.filter (fun s => !(s = "")) ++ ["Error reading stream: " ++ m], false))
    ∧ (∀ (lines : List String) (err : String), err ≠ "" → (∀ l ∈ lines, l ≠ "") →
      remoteLogGen err (lines.map RemoteRead.line)
        = (lines ++ ["Error reading stream: " ++ err], false))
    ∧ (∀ (lines : List String) (err m : String) (rest : List RemoteRead),
      (∀ l ∈ lines, l ≠ "") →
      remoteLogGen err (lines.map RemoteRead.line ++ RemoteRead.exc m :: rest)
        = (lines, true)) := by
  refine ⟨?_, ?_, ?_⟩
  · intro chunks m
    induction chunks with
    | nil => rfl
    | cons c cs ih =>
        rw [List.map_cons, List.cons_append, localLogGen, ih]
        by_cases hc : c = ""
        · subst hc; simp
        · simp [hc, List.filter_cons]
  · intro lines err herr hl
    induction lines with
    | nil => simp [remoteLogGen, herr]
    | cons l ls ih =>
        have hl0 : l ≠ "" := hl l (List.mem_cons_self l ls)
        rw [List.map_cons, remoteLogGen, if_neg hl0,
          ih (fun x hx => hl x (List.mem_cons_of_mem _ hx))]
        simp
  · intro lines err m rest hl
    induction lines with
    | nil => rfl
    | cons l ls ih =>
        have hl0 : l ≠ "" := hl l (List.mem_cons_self l ls)
        rw [List.map_cons, List.cons_append, remoteLogGen, if_neg hl0]
        simp only [List.append_eq]
        rw [ih (fun x hx => hl x (List.mem_cons_of_mem _ hx))]

/-- Witness for `log_stream_error_policy`: one streamed line, then a local
source failure and a remote end-of-stream with stderr text. -/
theorem log_stream_error_policy_witness :
    (("boom" : String) ≠ "" ∧ ∀ l ∈ (["line1\n"] : List String), l ≠ "")
    ∧ remoteLogGen "boom" (["line1\n"].map RemoteRead.line)
        = (["line1\n", "Error reading stream: boom"], false) :=
  ⟨⟨by decide, by decide⟩,
    log_stream_error_policy.2.1 ["line1\n"] "boom" (by decide) (by decide)⟩

/-- A list of delivered chunk events contains no lifecycle event. -/
theorem count_chunk_map_eq_zero (l : List String) (v : REv)
    (h : ∀ s, v ≠ REv.chunk s) : (l.map REv.chunk).count v = 0 := by
  rw [List.count_eq_zero]
  intro hmem
  obtain ⟨s, _, hs⟩ := List.mem_map.mp hmem
  exact h s hs.symm

/-- C7 — every remote request acquires exactly one fresh SSH handle when the
connection succeeds (the trace begins with the acquisition, so the handle is
request-local, never taken from a pool) and closes it exactly once on every
exit path: non-streaming handlers through their `finally`, streaming
handlers either in the `except` branch before streaming or in the
generator's `finally` when the stream ends, the read raises, or the
consumer disconnects after `k` chunks; when the SSH connection itself fails
there is no handle and nothing to release. -/
theorem ssh_handle_lifecycle :
    (∀ (c : Bool) (e : ExecOutcome),
      (remote_nonstream_trace c e).count REv.acq = (if c then 1 else 0)
      ∧ (remote_nonstream_trace c e).count REv.close = (if c then 1 else 0)
      ∧ (remote_nonstream_trace c e).head?
          = (if c then some REv.acq else some (REv.respond 500)))
    ∧ (∀ (c ex : Bool) (st : String) (reads : List RemoteRead) (cons : Consumption),
      (stream_remote_trace c ex st reads cons).count REv.acq = (if c then 1 else 0)
      ∧ (stream_remote_trace c ex st reads cons).count REv.close = (if c then 1 else 0)
      ∧ (stream_remote_trace c ex st reads cons).head?
          = (if c then some REv.acq else some (REv.respond 500))) := by
  constructor
  · intro c e
    cases c with
    | false => cases e <;> simp [remote_nonstream_trace]
    | true =>
        cases e with
        | raised m => simp [remote_nonstream_trace, List.count_cons]
        | ran exit outT errT =>
            by_cases hx : exit ≠ 0 <;>
              simp [remote_nonstream_trace, hx, List.count_cons]
  · intro c ex st reads cons
    cases c with
    | false => simp [stream_remote_trace]
    | true =>
        cases ex with
        | true => simp [stream_remote_trace, List.count_cons]
        | false =>
            have hacq := count_chunk_map_eq_zero (remoteLogGen st reads).1
              REv.acq (fun s => by simp)
            have hcl := count_chunk_map_eq_zero (remoteLogGen st reads).1
              REv.close (fun s => by simp)
            have hacqT : ∀ k, ((List.map REv.chunk (remoteLogGen st reads).1).take k).count
                REv.acq = 0 := fun k =>
              Nat.le_zero.mp (hacq ▸ (List.take_sublist k _).count_le REv.acq)
            have hclT : ∀ k, ((List.map REv.chunk (remoteLogGen st reads).1).take k).count
                REv.close = 0 := fun k =>
              Nat.le_zero.mp (hcl ▸ (List.take_sublist k _).count_le REv.close)
            refine ⟨?_, ?_, ?_⟩
            · cases cons with
              | toEnd =>
                  simp [stream_remote_trace, List.count_cons, List.count_append, hacq]
              | cancelAfter k =>
                  simp [stream_remote_trace, List.count_cons, List.count_append, hacqT k]
            · cases cons with
              | toEnd =>
                  simp [stream_remote_trace, List.count_cons, List.count_append, hcl]
              | cancelAfter k =>
                  simp [stream_remote_trace, List.count_cons, List.count_append, hclT k]
            · simp [stream_remote_trace]

/-! ### Accounting lemmas for the export pipelines -/

/-- Counting an element a filter rejects gives zero. -/
theorem count_filter_neg {f : TPath → Bool} {q : TPath} (l : List TPath)
    (h : f q = false) : (l.filter f).count q = 0 := by
  rw [List.count_eq_zero]
  intro hmem
  have := (List.mem_filter.mp hmem).2
  rw [h] at this
  cases this

/-- A filter and its complement split the count of any element. -/
theorem count_filter_add_not (l : List TPath) (f : TPath → Bool) (q : TPath) :
    (l.filter f).count q + (l.filter (fun p => !(f p))).count q = l.count q := by
  by_cases hq : f q
  · rw [List.count_filter hq, count_filter_neg l (by simp [hq])]
    omega
  · rw [count_filter_neg l (by simp at hq; simp [hq]),
      List.count_filter (by simp at hq; simp [hq])]
    omega

theorem balanced_init : balanced FsState.init := by
  intro p
  rfl

theorem balanced_mkPath (p : TPath) (st : FsState) (h : balanced st) :
    balanced (mkPath p st) := by
  intro q
  rw [mkPath]
  by_cases hp : p ∈ st.fs
  · rw [if_pos hp]; exact h q
  · rw [if_neg hp]
    simp only [List.count_append]
    have := h q
    omega

theorem balanced_rmPath (p : TPath) (st : FsState) (hp : p ∈ st.fs)
    (h : balanced st) : balanced (rmPath p st) := by
  intro q
  simp only [rmPath, List.count_append, List.count_erase]
  have hb := h q
  by_cases hq : p = q
  · subst hq
    have h1 : 1 ≤ st.fs.count p := List.one_le_count_iff.mpr hp
    simp only [beq_self_eq_true, if_pos]
    simp [List.count_cons]
    omega
  · have : (p == q) = false := by simp [hq]
    rw [this]
    simp [List.count_cons, hq]
    omega

theorem balanced_cleanupT (paths : List (Option TPath)) (st : FsState)
    (h : balanced st) : balanced (cleanupT paths st) := by
  induction paths generalizing st with
  | nil => exact h
  | cons op rest ih =>
      cases op with
      | none => exact ih st h
      | some p =>
          by_cases hp : p ∈ st.fs
          · have : cleanupT (some p :: rest) st = cleanupT rest (rmPath p st) := by
              simp [cleanupT, hp]
            rw [this]
            exact ih _ (balanced_rmPath p st hp h)
          · have : cleanupT (some p :: rest) st = cleanupT rest st := by
              simp [cleanupT, hp]
            rw [this]
            exact ih st h

theorem balanced_rmTree (st : FsState) (h : balanced st) :
    balanced (rmTree st) := by
  intro q
  simp only [rmTree, List.count_append]
  have := count_filter_add_not st.fs (fun p => inTempDir p) q
  have hb := h q
  simp only at this
  omega

theorem mem_mkPath (p : TPath) (st : FsState) : p ∈ (mkPath p st).fs := by
  rw [mkPath]
  by_cases hp : p ∈ st.fs
  · rw [if_pos hp]; exact hp
  · rw [if_neg hp]; simp

theorem nodup_mkPath (p : TPath) (st : FsState) (h : st.fs.Nodup) :
    (mkPath p st).fs.Nodup := by
  rw [mkPath]
  by_cases hp : p ∈ st.fs
  · rw [if_pos hp]; exact h
  · rw [if_neg hp]
    simp [List.nodup_append, h, hp]

theorem nodup_rmPath (p : TPath) (st : FsState) (h : st.fs.Nodup) :
    (rmPath p st).fs.Nodup :=
  h.erase p

theorem nodup_rmTree (st : FsState) (h : st.fs.Nodup) :
    (rmTree st).fs.Nodup :=
  h.filter _

theorem nodup_cleanupT (paths : List (Option TPath)) (st : FsState)
    (h : st.fs.Nodup) : (cleanupT paths st).fs.Nodup := by
  induction paths generalizing st with
  | nil => exact h
  | cons op rest ih =>
      cases op with
      | none => exact ih st h
      | some p =>
          by_cases hp : p ∈ st.fs
          · have he : cleanupT (some p :: rest) st = cleanupT rest (rmPath p st) := by
              simp [cleanupT, hp]
            rw [he]; exact ih _ (nodup_rmPath p st h)
          · have he : cleanupT (some p :: rest) st = cleanupT rest st := by
              simp [cleanupT, hp]
            rw [he]; exact ih st h

theorem balanced_localIndivStep (st : FsState) (img : LocalImage) (o : ImgSave)
    (h : balanced st) : balanced (localIndivStep st img o) := by
  cases o with
  | ok => exact balanced_mkPath _ st h
  | failBeforeOpen => exact h
  | failAfterOpen =>
      show balanced (let st' := mkPath _ st; if _ ∈ st'.fs then rmPath _ st' else st')
      rw [if_pos (mem_mkPath _ st)]
      exact balanced_rmPath _ _ (mem_mkPath _ st) (balanced_mkPath _ st h)

theorem nodup_localIndivStep (st : FsState) (img : LocalImage) (o : ImgSave)
    (h : st.fs.Nodup) : (localIndivStep st img o).fs.Nodup := by
  cases o with
  | ok => exact nodup_mkPath _ st h
  | failBeforeOpen => exact h
  | failAfterOpen =>
      show ((let st' := mkPath _ st; if _ ∈ st'.fs then rmPath _ st' else st')).fs.Nodup
      rw [if_pos (mem_mkPath _ st)]
      exact nodup_rmPath _ _ (nodup_mkPath _ st h)

theorem fsTempOnly_localIndivStep (st : FsState) (img : LocalImage) (o : ImgSave)
    (h : fsTempOnly st) : fsTempOnly (localIndivStep st img o) := by
  have hmk : fsTempOnly (mkPath (TPath.fileP (local_indiv_name img ++ ".tar.gz")) st) := by
    intro q hq
    rw [mkPath] at hq
    by_cases hp : TPath.fileP (local_indiv_name img ++ ".tar.gz") ∈ st.fs
    · rw [if_pos hp] at hq; exact h q hq
    · rw [if_neg hp] at hq
      rcases List.mem_append.mp hq with hq' | hq'
      · exact h q hq'
      · simp at hq'; subst hq'; rfl
  cases o with
  | ok => exact hmk
  | failBeforeOpen => exact h
  | failAfterOpen =>
      show fsTempOnly (let st' := mkPath _ st; if _ ∈ st'.fs then rmPath _ st' else st')
      rw [if_pos (mem_mkPath _ st)]
      intro q hq
      exact hmk q (List.mem_of_mem_erase hq)

theorem balanced_localIndivFold (imgs : List (LocalImage × ImgSave)) (st : FsState)
    (h : balanced st) :
    balanced (imgs.foldl (fun st io => localIndivStep st io.1 io.2) st) := by
  induction imgs generalizing st with
  | nil => exact h
  | cons io rest ih => exact ih _ (balanced_localIndivStep st io.1 io.2 h)

theorem nodup_localIndivFold (imgs : List (LocalImage × ImgSave)) (st : FsState)
    (h : st.fs.Nodup) :
    (imgs.foldl (fun st io => localIndivStep st io.1 io.2) st).fs.Nodup := by
  induction imgs generalizing st with
  | nil => exact h
  | cons io rest ih => exact ih _ (nodup_localIndivStep st io.1 io.2 h)

theorem fsTempOnly_localIndivFold (imgs : List (LocalImage × ImgSave)) (st : FsState)
    (h : fsTempOnly st) :
    fsTempOnly (imgs.foldl (fun st io => localIndivStep st io.1 io.2) st) := by
  induction imgs generalizing st with
  | nil => exact h
  | cons io rest ih => exact ih _ (fsTempOnly_localIndivStep st io.1 io.2 h)

theorem balanced_remoteIndivStep (st : FsState) (img : String) (o : RemoteImgSave)
    (h : balanced st) : balanced (remoteIndivStep st img o) := by
  cases o with
  | ran exit => exact balanced_mkPath _ st h
  | raisedBeforeOpen => exact h
  | raisedAfterOpen =>
      show balanced (let st' := mkPath _ st; if _ ∈ st'.fs then rmPath _ st' else st')
      rw [if_pos (mem_mkPath _ st)]
      exact balanced_rmPath _ _ (mem_mkPath _ st) (balanced_mkPath _ st h)

theorem nodup_remoteIndivStep (st : FsState) (img : String) (o : RemoteImgSave)
    (h : st.fs.Nodup) : (remoteIndivStep st img o).fs.Nodup := by
  cases o with
  | ran exit => exact nodup_mkPath _ st h
  | raisedBeforeOpen => exact h
  | raisedAfterOpen =>
      show ((let st' := mkPath _ st; if _ ∈ st'.fs then rmPath _ st' else st')).fs.Nodup
      rw [if_pos (mem_mkPath _ st)]
      exact nodup_rmPath _ _ (nodup_mkPath _ st h)

theorem fsTempOrZip_remoteIndivStep (st : FsState) (img : String) (o : RemoteImgSave)
    (h : fsTempOrZip st) : fsTempOrZip (remoteIndivStep st img o) := by
  have hmk : fsTempOrZip (mkPath (TPath.fileP (sanitizeS img ++ ".tar.gz")) st) := by
    intro q hq
    rw [mkPath] at hq
    by_cases hp : TPath.fileP (sanitizeS img ++ ".tar.gz") ∈ st.fs
    · rw [if_pos hp] at hq; exact h q hq
    · rw [if_neg hp] at hq
      rcases List.mem_append.mp hq with hq' | hq'
      · exact h q hq'
      · simp at hq'; subst hq'; exact Or.inl rfl
  cases o with
  | ran exit => exact hmk
  | raisedBeforeOpen => exact h
  | raisedAfterOpen =>
      show fsTempOrZip (let st' := mkPath _ st; if _ ∈ st'.fs then rmPath _ st' else st')
      rw [if_pos (mem_mkPath _ st)]
      intro q hq
      exact hmk q (List.mem_of_mem_erase hq)

theorem balanced_remoteIndivFold (images : List String)
    (saves : String → RemoteImgSave) (st : FsState) (h : balanced st) :
    balanced (images.foldl (fun st img => remoteIndivStep st img (saves img)) st) := by
  induction images generalizing st with
  | nil => exact h
  | cons i rest ih => exact ih _ (balanced_remoteIndivStep st i (saves i) h)

theorem nodup_remoteIndivFold (images : List String)
    (saves : String → RemoteImgSave) (st : FsState) (h : st.fs.Nodup) :
    (images.foldl (fun st img => remoteIndivStep st img (saves img)) st).fs.Nodup := by
  induction images generalizing st with
  | nil => exact h
  | cons i rest ih => exact ih _ (nodup_remoteIndivStep st i (saves i) h)

theorem fsTempOrZip_remoteIndivFold (images : List String)
    (saves : String → RemoteImgSave) (st : FsState) (h : fsTempOrZip st) :
    fsTempOrZip (images.foldl (fun st img => remoteIndivStep st img (saves img)) st) := by
  induction images generalizing st with
  | nil => exact h
  | cons i rest ih => exact ih _ (fsTempOrZip_remoteIndivStep st i (saves i) h)

/-- A balanced state with an empty filesystem has matching creation and
removal multisets. -/
theorem cleanExact_of (st : FsState) (hb : balanced st) (hfs : st.fs = []) :
    cleanExact st := by
  refine ⟨hfs, fun p => ?_⟩
  have := hb p
  rw [hfs] at this
  simp only [List.count_nil] at this
  omega

/-- Tearing down the temp directory and then the zip temp file leaves
nothing behind and removes every created artifact exactly once, whenever
the filesystem holds only in-directory artifacts and possibly the zip. -/
theorem rmTree_cleanup_clean (st : FsState) (hb : balanced st)
    (hnd : st.fs.Nodup) (hw : fsTempOrZip st) :
    cleanExact (cleanupT [some TPath.zipP] (rmTree st)) := by
  have hall : ∀ p ∈ (rmTree st).fs, p = TPath.zipP := by
    intro p hp
    have hmem := List.mem_filter.mp hp
    rcases hw p hmem.1 with h1 | h1
    · rw [h1] at hmem; simp at hmem
    · exact h1
  have hnd' : (rmTree st).fs.Nodup := nodup_rmTree st hnd
  have hb' : balanced (rmTree st) := balanced_rmTree st hb
  have hcases : (rmTree st).fs = [] ∨ (rmTree st).fs = [TPath.zipP] := by
    cases hfs : (rmTree st).fs with
    | nil => exact Or.inl rfl
    | cons a tl =>
        have ha : a = TPath.zipP := hall a (by rw [hfs]; simp)
        cases htl : tl with
        | nil => right; rw [ha]
        | cons b tl2 =>
            have hb2 : b = TPath.zipP := hall b (by rw [hfs, htl]; simp)
            exfalso
            rw [hfs, htl, ha, hb2] at hnd'
            simp at hnd'
  rcases hcases with hfs | hfs
  · have heq : cleanupT [some TPath.zipP] (rmTree st) = rmTree st := by
      simp [cleanupT, hfs]
    rw [heq]
    exact cleanExact_of _ hb' hfs
  · have hmem : TPath.zipP ∈ (rmTree st).fs := by rw [hfs]; simp
    have hres : (cleanupT [some TPath.zipP] (rmTree st)).fs = [] := by
      simp [cleanupT, hmem, rmPath, hfs]
    exact cleanExact_of _ (balanced_cleanupT _ _ hb') hres

/-- Tearing down the temp directory alone leaves nothing behind when only
in-directory artifacts exist. -/
theorem rmTree_clean (st : FsState) (hb : balanced st) (h : fsTempOnly st) :
    cleanExact (rmTree st) := by
  have hfs : (rmTree st).fs = [] := by
    show st.fs.filter _ = []
    refine List.filter_eq_nil_iff.mpr ?_
    intro a ha
    simp [h a ha]
  exact cleanExact_of _ (balanced_rmTree st hb) hfs

/-- C1 — for every export request at all six export endpoints, local and
remote (single image, all-images single archive, all-images individual),
under every modelled failure oracle: after the response is delivered
(including the scheduled background cleanup on success) or the HTTP error
raised, no temporary artifact survives, and the removal events match the
creation events exactly — every temp path created during the request is
removed exactly once, none twice, none spuriously. -/
theorem export_temp_cleanup_exactly_once :
    (∀ (imageName : String) (o : SpecificOutcome),
      cleanExact (download_specific_image_run imageName o).1)
    ∧ (∀ (images : List LocalImage) (lr : Option String) (stage : AllStage),
      cleanExact (download_all_images_run images lr stage).1)
    ∧ (∀ (lr : Option String) (imgs : List (LocalImage × ImgSave)) (z : ZipStage),
      cleanExact (download_all_images_individual_run lr imgs z).1)
    ∧ (∀ (imageName : String) (e : ExecOutcome),
      cleanExact (download_remote_specific_image_run imageName e).1)
    ∧ (∀ (lines : List String) (stage : RemoteAllStage),
      cleanExact (download_remote_all_images_run lines stage).1)
    ∧ (∀ (lines : List String) (saves : String → RemoteImgSave)
        (lr : Option String) (z : ZipStage),
      cleanExact (download_remote_all_images_individual_run lines saves lr z).1) := by
  have hinit : cleanExact FsState.init := ⟨rfl, fun p => rfl⟩
  refine ⟨?_, ?_, ?_, ?_, ?_, ?_⟩
  · intro imageName o
    cases o with
    | imageMissing => exact hinit
    | lookupError m => exact hinit
    | saveFails m => exact ⟨rfl, fun p => rfl⟩
    | success => exact ⟨rfl, fun p => rfl⟩
  · intro images lr stage
    cases lr with
    | some m => exact hinit
    | none =>
        by_cases he : images.isEmpty
        · simp only [download_all_images_run, if_pos he]
          exact hinit
        · simp only [download_all_images_run, if_neg he]
          cases stage with
          | saveFails e => exact ⟨rfl, fun p => rfl⟩
          | compressFails m => exact ⟨rfl, fun p => rfl⟩
          | allOk => exact ⟨rfl, fun p => rfl⟩
  · intro lr imgs z
    cases lr with
    | some m => exact hinit
    | none =>
        by_cases he : imgs.isEmpty
        · simp only [download_all_images_individual_run, if_pos he]
          exact hinit
        · simp only [download_all_images_individual_run, if_neg he]
          have hb1 : balanced (imgs.foldl (fun st io => localIndivStep st io.1 io.2)
              (mkPath TPath.dirP FsState.init)) :=
            balanced_localIndivFold imgs _ (balanced_mkPath _ _ balanced_init)
          have hnd1 : (imgs.foldl (fun st io => localIndivStep st io.1 io.2)
              (mkPath TPath.dirP FsState.init)).fs.Nodup :=
            nodup_localIndivFold imgs _ (by rw [mkPath]; simp [FsState.init])
          have ht1 : fsTempOnly (imgs.foldl (fun st io => localIndivStep st io.1 io.2)
              (mkPath TPath.dirP FsState.init)) := by
            refine fsTempOnly_localIndivFold imgs _ ?_
            intro p hp
            rw [mkPath] at hp
            simp [FsState.init] at hp
            subst hp; rfl
          cases z with
          | mkstempZipFails m => exact rmTree_clean _ hb1 ht1
          | makeArchiveFails m =>
              refine rmTree_cleanup_clean _ (balanced_mkPath _ _ hb1)
                (nodup_mkPath _ _ hnd1) ?_
              intro q hq
              rw [mkPath] at hq
              by_cases hz : TPath.zipP ∈ (imgs.foldl (fun st io => localIndivStep st io.1 io.2)
                  (mkPath TPath.dirP FsState.init)).fs
              · rw [if_pos hz] at hq; exact Or.inl (ht1 q hq)
              · rw [if_neg hz] at hq
                rcases List.mem_append.mp hq with hq' | hq'
                · exact Or.inl (ht1 q hq')
                · simp at hq'; exact Or.inr hq'
          | zipOk =>
              refine rmTree_cleanup_clean _ (balanced_mkPath _ _ hb1)
                (nodup_mkPath _ _ hnd1) ?_
              intro q hq
              rw [mkPath] at hq
              by_cases hz : TPath.zipP ∈ (imgs.foldl (fun st io => localIndivStep st io.1 io.2)
                  (mkPath TPath.dirP FsState.init)).fs
              · rw [if_pos hz] at hq; exact Or.inl (ht1 q hq)
              · rw [if_neg hz] at hq
                rcases List.mem_append.mp hq with hq' | hq'
                · exact Or.inl (ht1 q hq')
                · simp at hq'; exact Or.inr hq'
  · intro imageName e
    cases e with
    | raised m => exact ⟨rfl, fun p => rfl⟩
    | ran exit outT errT =>
        by_cases hx : exit ≠ 0
        · simp only [download_remote_specific_image_run, if_pos hx]
          exact ⟨rfl, fun p => rfl⟩
        · simp only [download_remote_specific_image_run, if_neg hx]
          exact ⟨rfl, fun p => rfl⟩
  · intro lines stage
    cases stage with
    | listRaises m => exact ⟨rfl, fun p => rfl⟩
    | saveRaises m =>
        by_cases he : (remoteImageLines lines).isEmpty <;>
          simp only [download_remote_all_images_run, if_pos, if_neg, he] <;>
          exact ⟨rfl, fun p => rfl⟩
    | saveRan exit errT =>
        by_cases he : (remoteImageLines lines).isEmpty
        · simp only [download_remote_all_images_run, if_pos he]
          exact ⟨rfl, fun p => rfl⟩
        · simp only [download_remote_all_images_run, if_neg he]
          by_cases hx : exit ≠ 0
          · simp only [if_pos hx]
            exact ⟨rfl, fun p => rfl⟩
          · simp only [if_neg hx]
            exact ⟨rfl, fun p => rfl⟩
  · intro lines saves lr z
    have hst0 : balanced (mkPath TPath.zipP (mkPath TPath.dirP FsState.init))
        ∧ (mkPath TPath.zipP (mkPath TPath.dirP FsState.init)).fs.Nodup
        ∧ fsTempOrZip (mkPath TPath.zipP (mkPath TPath.dirP FsState.init)) := by
      refine ⟨balanced_mkPath _ _ (balanced_mkPath _ _ balanced_init), ?_, ?_⟩
      · rw [mkPath, mkPath]; simp [FsState.init]
      · intro q hq
        rw [mkPath, mkPath] at hq
        simp [FsState.init] at hq
        rcases hq with hq | hq
        · subst hq; exact Or.inl rfl
        · subst hq; exact Or.inr rfl
    cases lr with
    | some m => exact rmTree_cleanup_clean _ hst0.1 hst0.2.1 hst0.2.2
    | none =>
        by_cases he : (remoteImageLines lines).isEmpty
        · simp only [download_remote_all_images_individual_run, if_pos he]
          exact rmTree_cleanup_clean _ hst0.1 hst0.2.1 hst0.2.2
        · simp only [download_remote_all_images_individual_run, if_neg he]
          have hb1 := balanced_remoteIndivFold (remoteImageLines lines) saves _ hst0.1
          have hnd1 := nodup_remoteIndivFold (remoteImageLines lines) saves _ hst0.2.1
          have hw1 := fsTempOrZip_remoteIndivFold (remoteImageLines lines) saves _ hst0.2.2
          cases z with
          | mkstempZipFails m => exact rmTree_cleanup_clean _ hb1 hnd1 hw1
          | makeArchiveFails m => exact rmTree_cleanup_clean _ hb1 hnd1 hw1
          | zipOk => exact rmTree_cleanup_clean _ hb1 hnd1 hw1

theorem mkPath_fs_of_not_mem (p : TPath) (st : FsState) (h : p ∉ st.fs) :
    (mkPath p st).fs = st.fs ++ [p] := by
  rw [mkPath, if_neg h]

theorem failAfter_fs (p : TPath) (st : FsState) (h : p ∉ st.fs) :
    (rmPath p (mkPath p st)).fs = st.fs := by
  show (mkPath p st).fs.erase p = st.fs
  rw [mkPath_fs_of_not_mem p st h, List.erase_append_right _ h]
  simp

/-- The zip members after the local individual-export loop: exactly one
member per image whose save raised no exception, in loop order, provided
the images' member names are pairwise distinct. -/
theorem dirMembers_localIndivFold (imgs : List (LocalImage × ImgSave)) (st : FsState)
    (hnames : (imgs.map (fun io => localMemberName io.1)).Nodup)
    (hnotin : ∀ io ∈ imgs, TPath.fileP (localMemberName io.1) ∉ st.fs) :
    dirMembers (imgs.foldl (fun st io => localIndivStep st io.1 io.2) st)
      = dirMembers st
        ++ (imgs.filter (fun io => io.2 == ImgSave.ok)).map
            (fun io => localMemberName io.1) := by
  induction imgs generalizing st with
  | nil => simp
  | cons io rest ih =>
      have hnames' : (rest.map (fun io => localMemberName io.1)).Nodup :=
        (List.nodup_cons.mp hnames).2
      have hhead : localMemberName io.1 ∉ rest.map (fun io => localMemberName io.1) :=
        (List.nodup_cons.mp hnames).1
      have hio : TPath.fileP (localMemberName io.1) ∉ st.fs :=
        hnotin io (List.mem_cons_self io rest)
      rw [List.foldl_cons]
      have hrest : ∀ io' ∈ rest, TPath.fileP (localMemberName io'.1) ∉ st.fs :=
        fun io' hio' => hnotin io' (List.mem_cons_of_mem _ hio')
      cases ho : io.2 with
      | ok =>
          have hstep : localIndivStep st io.1 ImgSave.ok
              = mkPath (TPath.fileP (localMemberName io.1)) st := rfl
          rw [hstep, ih (mkPath _ st) hnames' ?hnotin]
          case hnotin =>
            intro io' hio'
            rw [mkPath_fs_of_not_mem _ st hio]
            intro hmem
            rcases List.mem_append.mp hmem with hm | hm
            · exact hrest io' hio' hm
            · simp at hm
              exact hhead (hm ▸ List.mem_map_of_mem (fun io => localMemberName io.1) hio')
          have hd : dirMembers (mkPath (TPath.fileP (localMemberName io.1)) st)
              = dirMembers st ++ [localMemberName io.1] := by
            show ((mkPath (TPath.fileP (localMemberName io.1)) st).fs.filterMap _) = _
            rw [mkPath_fs_of_not_mem _ st hio, List.filterMap_append]
            rfl
          rw [hd, List.filter_cons, ho]
          simp
      | failBeforeOpen =>
          have hstep : localIndivStep st io.1 ImgSave.failBeforeOpen = st := rfl
          rw [hstep, ih st hnames' hrest, List.filter_cons, ho]
          simp
      | failAfterOpen =>
          have hstep : localIndivStep st io.1 ImgSave.failAfterOpen
              = rmPath (TPath.fileP (localMemberName io.1))
                  (mkPath (TPath.fileP (localMemberName io.1)) st) := by
            show (if TPath.fileP (local_indiv_name io.1 ++ ".tar.gz")
                  ∈ (mkPath (TPath.fileP (local_indiv_name io.1 ++ ".tar.gz")) st).fs
                then rmPath (TPath.fileP (local_indiv_name io.1 ++ ".tar.gz"))
                  (mkPath (TPath.fileP (local_indiv_name io.1 ++ ".tar.gz")) st)
                else mkPath (TPath.fileP (local_indiv_name io.1 ++ ".tar.gz")) st)
              = rmPath (TPath.fileP (local_indiv_name io.1 ++ ".tar.gz"))
                  (mkPath (TPath.fileP (local_indiv_name io.1 ++ ".tar.gz")) st)
            exact if_pos (mem_mkPath _ st)
          have hfs : (rmPath (TPath.fileP (localMemberName io.1))
              (mkPath (TPath.fileP (localMemberName io.1)) st)).fs = st.fs :=
            failAfter_fs _ st hio
          have hnotin' : ∀ io' ∈ rest, TPath.fileP (localMemberName io'.1)
              ∉ (rmPath (TPath.fileP (localMemberName io.1))
                  (mkPath (TPath.fileP (localMemberName io.1)) st)).fs := by
            intro io' hio'
            rw [hfs]
            exact hrest io' hio'
          have hd : dirMembers (rmPath (TPath.fileP (localMemberName io.1))
              (mkPath (TPath.fileP (localMemberName io.1)) st)) = dirMembers st := by
            show (rmPath _ _).fs.filterMap _ = st.fs.filterMap _
            rw [hfs]
          rw [hstep, ih _ hnames' hnotin', hd, List.filter_cons, ho]
          simp

/-- The zip members after the remote individual-export loop: exactly one
member per image reference whose save raised no exception — a non-zero
`docker save` exit status is *not* an exception and still contributes a
member — provided the sanitised member names are pairwise distinct. -/
theorem dirMembers_remoteIndivFold (images : List String)
    (saves : String → RemoteImgSave) (st : FsState)
    (hnames : (images.map remoteMemberName).Nodup)
    (hnotin : ∀ i ∈ images, TPath.fileP (remoteMemberName i) ∉ st.fs) :
    dirMembers (images.foldl (fun st img => remoteIndivStep st img (saves img)) st)
      = dirMembers st
        ++ (images.filter (fun i => !(remoteImgRaised (saves i)))).map remoteMemberName := by
  induction images generalizing st with
  | nil => simp
  | cons i rest ih =>
      have hnames' : (rest.map remoteMemberName).Nodup := (List.nodup_cons.mp hnames).2
      have hhead : remoteMemberName i ∉ rest.map remoteMemberName :=
        (List.nodup_cons.mp hnames).1
      have hio : TPath.fileP (remoteMemberName i) ∉ st.fs :=
        hnotin i (List.mem_cons_self i rest)
      rw [List.foldl_cons]
      have hrest : ∀ i' ∈ rest, TPath.fileP (remoteMemberName i') ∉ st.fs :=
        fun i' hi' => hnotin i' (List.mem_cons_of_mem _ hi')
      cases ho : saves i with
      | ran exit =>
          have hstep : remoteIndivStep st i (RemoteImgSave.ran exit)
              = mkPath (TPath.fileP (remoteMemberName i)) st := rfl
          rw [hstep, ih (mkPath _ st) hnames' ?hnotin]
          case hnotin =>
            intro i' hi'
            rw [mkPath_fs_of_not_mem _ st hio]
            intro hmem
            rcases List.mem_append.mp hmem with hm | hm
            · exact hrest i' hi' hm
            · simp at hm
              exact hhead (hm ▸ List.mem_map_of_mem remoteMemberName hi')
          have hd : dirMembers (mkPath (TPath.fileP (remoteMemberName i)) st)
              = dirMembers st ++ [remoteMemberName i] := by
            show ((mkPath (TPath.fileP (remoteMemberName i)) st).fs.filterMap _) = _
            rw [mkPath_fs_of_not_mem _ st hio, List.filterMap_append]
            rfl
          rw [hd, List.filter_cons, ho]
          simp [remoteImgRaised]
      | raisedBeforeOpen =>
          have hstep : remoteIndivStep st i RemoteImgSave.raisedBeforeOpen = st := rfl
          rw [hstep, ih st hnames' hrest, List.filter_cons, ho]
          simp [remoteImgRaised]
      | raisedAfterOpen =>
          have hstep : remoteIndivStep st i RemoteImgSave.raisedAfterOpen
              = rmPath (TPath.fileP (remoteMemberName i))
                  (mkPath (TPath.fileP (remoteMemberName i)) st) := by
            show (if TPath.fileP (sanitizeS i ++ ".tar.gz")
                  ∈ (mkPath (TPath.fileP (sanitizeS i ++ ".tar.gz")) st).fs
                then rmPath (TPath.fileP (sanitizeS i ++ ".tar.gz"))
                  (mkPath (TPath.fileP (sanitizeS i ++ ".tar.gz")) st)
                else mkPath (TPath.fileP (sanitizeS i ++ ".tar.gz")) st)
              = rmPath (TPath.fileP (sanitizeS i ++ ".tar.gz"))
                  (mkPath (TPath.fileP (sanitizeS i ++ ".tar.gz")) st)
            exact if_pos (mem_mkPath _ st)
          have hfs : (rmPath (TPath.fileP (remoteMemberName i))
              (mkPath (TPath.fileP (remoteMemberName i)) st)).fs = st.fs :=
            failAfter_fs _ st hio
          have hnotin' : ∀ i' ∈ rest, TPath.fileP (remoteMemberName i')
              ∉ (rmPath (TPath.fileP (remoteMemberName i))
                  (mkPath (TPath.fileP (remoteMemberName i)) st)).fs := by
            intro i' hi'
            rw [hfs]
            exact hrest i' hi'
          have hd : dirMembers (rmPath (TPath.fileP (remoteMemberName i))
              (mkPath (TPath.fileP (remoteMemberName i)) st)) = dirMembers st := by
            show (rmPath _ _).fs.filterMap _ = st.fs.filterMap _
            rw [hfs]
          rw [hstep, ih _ hnames' hnotin', hd, List.filter_cons, ho]
          simp [remoteImgRaised]

/-- C3 counterexample — the claim says a failure while exporting one image
leaves no member for it, local and remote.  The remote loop
(`remote.py` 366–381) never checks the `docker save` exit status: the sole
image here fails (exit status 1, no payload), yet the zip still contains a
member for it — one member against zero non-failed images. -/
theorem remote_exit_failure_keeps_member :
    (download_remote_all_images_individual_run ["busybox:latest"]
        (fun _ => RemoteImgSave.ran 1) none ZipStage.zipOk).2.2
      = ["busybox_latest.tar.gz"]
    ∧ remoteImgFailed (RemoteImgSave.ran 1) = true := by
  decide

/-- C3 (amended) — when sanitised member names are pairwise distinct, the
local "export all images individually" zip contains exactly one member per
image whose save raised no exception (a raised failure removes the partial
file and the loop continues), and the remote variant exactly one member
per image reference whose export raised no transport exception — on the
remote path a `docker save` failure reported only through a non-zero exit
status is not detected and still contributes a member. -/
theorem individual_export_members (imgs : List (LocalImage × ImgSave))
    (lines : List String) (saves : String → RemoteImgSave) :
    ((imgs.map (fun io => localMemberName io.1)).Nodup → imgs ≠ [] →
      (download_all_images_individual_run none imgs ZipStage.zipOk).2.2
        = (imgs.filter (fun io => io.2 == ImgSave.ok)).map
            (fun io => localMemberName io.1))
    ∧ (((remoteImageLines lines).map remoteMemberName).Nodup →
        remoteImageLines lines ≠ [] →
      (download_remote_all_images_individual_run lines saves none ZipStage.zipOk).2.2
        = ((remoteImageLines lines).filter
            (fun i => !(remoteImgRaised (saves i)))).map remoteMemberName) := by
  constructor
  · intro hnd hne
    have hemp : imgs.isEmpty = false := by
      cases imgs with
      | nil => exact absurd rfl hne
      | cons a l => rfl
    simp only [download_all_images_individual_run, hemp, Bool.false_eq_true,
      if_false]
    have ht1 : fsTempOnly (imgs.foldl (fun st io => localIndivStep st io.1 io.2)
        (mkPath TPath.dirP FsState.init)) := by
      refine fsTempOnly_localIndivFold imgs _ ?_
      intro p hp
      rw [mkPath] at hp
      simp [FsState.init] at hp
      subst hp; rfl
    have hz : TPath.zipP ∉ (imgs.foldl (fun st io => localIndivStep st io.1 io.2)
        (mkPath TPath.dirP FsState.init)).fs := by
      intro hmem
      have := ht1 _ hmem
      simp [inTempDir] at this
    have hd : dirMembers (mkPath TPath.zipP
        (imgs.foldl (fun st io => localIndivStep st io.1 io.2)
          (mkPath TPath.dirP FsState.init)))
        = dirMembers (imgs.foldl (fun st io => localIndivStep st io.1 io.2)
            (mkPath TPath.dirP FsState.init)) := by
      show (mkPath TPath.zipP _).fs.filterMap _ = _
      rw [mkPath_fs_of_not_mem _ _ hz, List.filterMap_append]
      show _ ++ [] = _
      simp [dirMembers]
    rw [hd, dirMembers_localIndivFold imgs (mkPath TPath.dirP FsState.init) hnd ?h0]
    case h0 =>
      intro io hio hmem
      rw [mkPath] at hmem
      simp [FsState.init] at hmem
    show dirMembers (mkPath TPath.dirP FsState.init) ++ _ = _
    have : dirMembers (mkPath TPath.dirP FsState.init) = [] := rfl
    rw [this]
    simp
  · intro hnd hne
    have hemp : (remoteImageLines lines).isEmpty = false := by
      cases hl : remoteImageLines lines with
      | nil => exact absurd hl hne
      | cons a l => rfl
    simp only [download_remote_all_images_individual_run, hemp,
      Bool.false_eq_true, if_false]
    rw [dirMembers_remoteIndivFold (remoteImageLines lines) saves
      (mkPath TPath.zipP (mkPath TPath.dirP FsState.init)) hnd ?h0]
    case h0 =>
      intro i hi hmem
      rw [mkPath, mkPath] at hmem
      simp [FsState.init] at hmem
    show dirMembers (mkPath TPath.zipP (mkPath TPath.dirP FsState.init)) ++ _ = _
    have : dirMembers (mkPath TPath.zipP (mkPath TPath.dirP FsState.init)) = [] := rfl
    rw [this]
    simp

/-- Witness for `individual_export_members`: one tagged image saved
successfully and one whose save raises — the zip has exactly the
successful member. -/
theorem individual_export_members_witness :
    (([(⟨["busybox:latest"], "sha256:0123456789ab"⟩, ImgSave.ok),
        (⟨["alpine:3.20"], "sha256:ba9876543210"⟩, ImgSave.failAfterOpen)]
        : List (LocalImage × ImgSave)).map (fun io => localMemberName io.1)).Nodup
    ∧ (download_all_images_individual_run none
        [(⟨["busybox:latest"], "sha256:0123456789ab"⟩, ImgSave.ok),
          (⟨["alpine:3.20"], "sha256:ba9876543210"⟩, ImgSave.failAfterOpen)]
        ZipStage.zipOk).2.2
      = ["busybox_latest.tar.gz"] :=
  ⟨by decide,
    by
      rw [(individual_export_members
          [(⟨["busybox:latest"], "sha256:0123456789ab"⟩, ImgSave.ok),
            (⟨["alpine:3.20"], "sha256:ba9876543210"⟩, ImgSave.failAfterOpen)]
          [] (fun _ => RemoteImgSave.ran 0)).1 (by decide) (by decide)]
      decide⟩

/-- C5 counterexample — the claim predicts HTTP 404 for an "export all
images" request with an empty image list.  `download_all_images`
(`local.py` 286–328) does raise `HTTPException(404, "No images found on
this machine")`, but *inside* the `try`: the blanket `except Exception`
catches it and re-raises `HTTPException(500, str(e))`, so the client sees
HTTP 500 (whose detail still carries the 404 text). -/
theorem empty_image_list_surfaces_500 :
    (download_all_images_run [] none AllStage.allOk).2
      = ExportResult.err 500 (httpExcStr 404 "No images found on this machine")
    ∧ (500 : Nat) ≠ 404 :=
  ⟨rfl, by omega⟩

/-- C5 (amended) — an "export all images" request with an empty image list
fails before producing any archive, but with HTTP 500, not 404, in all
four all-images variants: the local variants (single archive and
individual) convert their internal 404 into a 500 whose detail is
`"404: No images found on this machine"` and create no temp artifact at
all; the remote variants raise a plain exception surfaced as a 500 with
detail `"No valid images found on remote machine"` — the remote single
archive having created and already deleted only its empty gz temp file,
the remote individual variant its temp directory and empty zip file, with
an empty member list. -/
theorem empty_export_fails_before_archive (stage : AllStage) (z : ZipStage)
    (lines : List String) (m : String) (exit : Nat) (errT : String)
    (saves : String → RemoteImgSave) :
    ((download_all_images_run [] none stage).1.created = []
      ∧ (download_all_images_run [] none stage).2
          = ExportResult.err 500 (httpExcStr 404 "No images found on this machine"))
    ∧ ((download_all_images_individual_run none [] z).1.created = []
      ∧ (download_all_images_individual_run none [] z).2.1
          = ExportResult.err 500 (httpExcStr 404 "No images found on this machine")
      ∧ (download_all_images_individual_run none [] z).2.2 = [])
    ∧ ((remoteImageLines lines).isEmpty = true →
        (download_remote_all_images_run lines (RemoteAllStage.saveRan exit errT)).2
            = ExportResult.err 500 "No valid images found on remote machine"
        ∧ (download_remote_all_images_run lines (RemoteAllStage.saveRan exit errT)).1.fs
            = []
        ∧ (download_remote_all_images_run lines (RemoteAllStage.saveRaises m)).2
            = ExportResult.err 500 "No valid images found on remote machine"
        ∧ (download_remote_all_images_individual_run lines saves none z).2.1
            = ExportResult.err 500 "No valid images found on remote machine"
        ∧ (download_remote_all_images_individual_run lines saves none z).2.2 = []
        ∧ (download_remote_all_images_individual_run lines saves none z).1.fs = []) := by
  refine ⟨⟨rfl, rfl⟩, ⟨rfl, rfl, rfl⟩, ?_⟩
  intro he
  refine ⟨?_, ?_, ?_, ?_, ?_, ?_⟩
  · simp only [download_remote_all_images_run, he, if_true, if_pos]
  · simp only [download_remote_all_images_run, he, if_true, if_pos]
    rfl
  · simp only [download_remote_all_images_run, he, if_true, if_pos]
  · simp only [download_remote_all_images_individual_run, he, if_true, if_pos]
  · simp only [download_remote_all_images_individual_run, he, if_true, if_pos]
  · simp only [download_remote_all_images_individual_run, he, if_true, if_pos]
    rfl

/-- Witness for `empty_export_fails_before_archive`: an empty remote
listing, exercised on both remote variants. -/
theorem empty_export_fails_before_archive_witness :
    (remoteImageLines []).isEmpty = true
    ∧ (download_remote_all_images_run [] (RemoteAllStage.saveRan 0 "")).2
        = ExportResult.err 500 "No valid images found on remote machine"
    ∧ (download_remote_all_images_individual_run []
        (fun _ => RemoteImgSave.ran 0) none ZipStage.zipOk).2.1
        = ExportResult.err 500 "No valid images found on remote machine" :=
  ⟨by decide,
    ((empty_export_fails_before_archive AllStage.allOk ZipStage.zipOk
      [] "" 0 "" (fun _ => RemoteImgSave.ran 0)).2.2 (by decide)).1,
    ((empty_export_fails_before_archive AllStage.allOk ZipStage.zipOk
      [] "" 0 "" (fun _ => RemoteImgSave.ran 0)).2.2 (by decide)).2.2.2.1⟩

/-- Sanitisation never outputs `':'` or `'/'`. -/
theorem sanitizeChar_ne (c : Char) : sanitizeChar c ≠ ':' ∧ sanitizeChar c ≠ '/' := by
  rw [sanitizeChar]
  by_cases h1 : c = ':'
  · simp [h1]
  · by_cases h2 : c = '/'
    · simp [h1, h2]
    · simp [h1, h2]

/-- C8 counterexample — the claim says an untagged image falls back to its
short identifier as the archive member name in all export variants,
local and remote.  The docker CLI renders an untagged image as
`<none>:<none>` under `--format '{{.Repository}}:{{.Tag}}'`; the remote
filter drops lines containing `"none:none"`, which does *not* match
`<none>:<none>` (the angle brackets break the substring), so the remote
individual export keeps the line and names the member
`<none>_<none>.tar.gz` — the sanitised listing line, not any short
identifier (short ids are `sha256:` plus hex digits and never contain
`'<'`). -/
theorem untagged_remote_member_not_short_id :
    remoteImageLines ["<none>:<none>"] = ["<none>:<none>"]
    ∧ (download_remote_all_images_individual_run ["<none>:<none>"]
        (fun _ => RemoteImgSave.ran 0) none ZipStage.zipOk).2.2
      = ["<none>_<none>.tar.gz"]
    ∧ '<' ∈ "<none>_<none>.tar.gz".data := by
  decide

/-- C8 (amended) — sanitisation replaces every `':'` and `'/'` by `'_'` and
nothing else, and it is applied to: the local single-image download name,
the first tag of a tagged image in the local individual export, the
reference in the remote single-image download (with a `"remote_"` prefix),
and the kept listing lines of the remote exports.  The untagged fallback
to the short identifier exists only in the local individual export, and
there the short id is used verbatim (its `':'` is not sanitised); the
remote exports never consult short identifiers — every remote name comes
from a stripped listing line. -/
theorem export_naming_rule (ref : List Char) (imageName t sid : String)
    (tags : List String) (lines : List String) :
    (sanitizeRef ref).all (fun c => !(c == ':' || c == '/')) = true
    ∧ (download_specific_image_run imageName SpecificOutcome.success).2
        = ExportResult.file (sanitizeS imageName ++ ".tar.gz")
    ∧ local_indiv_name ⟨t :: tags, sid⟩ = sanitizeS t
    ∧ local_indiv_name ⟨[], sid⟩ = sid
    ∧ remote_specific_filename imageName
        = "remote_" ++ sanitizeS imageName ++ ".tar.gz"
    ∧ (∀ i ∈ remoteImageLines lines, ∃ l ∈ lines, i = pyStrip l) := by
  refine ⟨?_, rfl, rfl, rfl, rfl, ?_⟩
  · rw [List.all_eq_true]
    intro c hc
    obtain ⟨c0, _, hc0⟩ := List.mem_map.mp hc
    have := sanitizeChar_ne c0
    subst hc0
    simp [this.1, this.2]
  · intro i hi
    obtain ⟨l, hl, hfl⟩ := List.mem_filterMap.mp hi
    refine ⟨l, hl, ?_⟩
    by_cases hcond : pyStrip l ≠ "" ∧ pyContains "none:none".data (pyStrip l).data = false
    · rw [if_pos hcond] at hfl
      exact (Option.some.injEq _ _ ▸ hfl).symm
    · rw [if_neg hcond] at hfl
      cases hfl

/-- Witness for `export_naming_rule`: the listing line
`"busybox:latest "` strips to the reference the member name is derived
from. -/
theorem export_naming_rule_witness :
    "busybox:latest" ∈ remoteImageLines ["busybox:latest "]
    ∧ (∃ l ∈ ["busybox:latest "], "busybox:latest" = pyStrip l) :=
  ⟨by decide,
    (export_naming_rule [] "" "" "" [] ["busybox:latest "]).2.2.2.2.2
      "busybox:latest" (by decide)⟩

end DockerApp
